import Mathlib

/-!
# GUNNS electrical battery cell and pack: a shallow embedding

Sources: `aspects/electrical/Batt/GunnsElectBatteryCell.cpp` (the cell) and
`aspects/electrical/Batt/GunnsElectBattery.hh` (the declarations of the pack).

The C++ `double` fields and arguments are embedded as rationals (`ℚ`), i.e. the
arithmetic of the source is read as exact arithmetic on finite values; infinities
and NaN are outside this model.  Rounding is outside it too, except for
`updateSocDouble`, which rounds each operation of the integration step to binary64
and is used where two different sequences of operations are compared.  Member
functions that assign fields become functions from the cell before the call to the
cell after it.  A member function that can throw returns the cell after the call
together with an `Except` result, because the assignments made before the throw
persist.
-/

namespace Gunns

/-- The constant `DBL_EPSILON` of the C header `<cfloat>` for IEEE-754 binary64: `2^-52`. -/
def DBL_EPSILON : ℚ := 1 / 2 ^ 52

/-- Modelled from the spec: `UnitConversion::SEC_PER_HR` (`math/UnitConversion.hh`, absent from
the sources at hand) is the `secondsPerHour` of the integration rule, 3600 seconds. -/
def SEC_PER_HR : ℚ := 3600

/-- Modelled from the spec: `Math::limitRange(lower, x, upper)` (`math/Math.hh`, absent from the
sources at hand) is the "clamp to [0,1]" of the integration rule: `x` limited to the closed
interval from `lower` to `upper`. -/
def limitRange (lower x upper : ℚ) : ℚ :=
  if x < lower then lower else if upper < x then upper else x

/-- Modelled from the spec: `Math::isInRange(lower, x, upper)` (`math/Math.hh`, absent from the
sources at hand) decides the "soc outside [0,1]" test: it holds when `lower ≤ x ≤ upper`. -/
def isInRange (lower x upper : ℚ) : Bool :=
  decide (lower ≤ x) && decide (x ≤ upper)

/-- Configuration data of a cell (`GunnsElectBatteryCellConfigData`). -/
structure GunnsElectBatteryCellConfigData where
  mResistance : ℚ
  mMaxCapacity : ℚ
  deriving DecidableEq

/-- Input data of a cell (`GunnsElectBatteryCellInputData`). -/
structure GunnsElectBatteryCellInputData where
  mMalfOpenCircuit : Bool
  mMalfShortCircuit : Bool
  mSoc : ℚ
  deriving DecidableEq

/-- The fields of `GunnsElectBatteryCell`. -/
structure GunnsElectBatteryCell where
  mMalfOpenCircuit : Bool
  mMalfShortCircuit : Bool
  mResistance : ℚ
  mMaxCapacity : ℚ
  mSoc : ℚ
  mName : String
  deriving DecidableEq

/-- The exception thrown by `GUNNS_ERROR(TsInitializationException, subtype, cause)`. -/
structure TsInitializationException where
  subtype : String
  cause : String
  deriving DecidableEq

/-- The default constructor `GunnsElectBatteryCell::GunnsElectBatteryCell()`. -/
def GunnsElectBatteryCell.default : GunnsElectBatteryCell :=
  { mMalfOpenCircuit := false, mMalfShortCircuit := false, mResistance := 0,
    mMaxCapacity := 0, mSoc := 0, mName := "" }

/-- The checks of `GunnsElectBatteryCell::validate()`, in source order; the first failing check
throws. -/
def GunnsElectBatteryCell.validate (c : GunnsElectBatteryCell) :
    Except TsInitializationException Unit :=
  if c.mName = "" then
    .error ⟨"Invalid Initialization Data", "Instance has no name."⟩
  else if c.mResistance < 0 then
    .error ⟨"Invalid Configuration Data", "Internal resistance < 0."⟩
  else if c.mMaxCapacity < DBL_EPSILON then
    .error ⟨"Invalid Initialization Data", "Maximum charge capacity < DBL_EPSILON."⟩
  else if !isInRange 0 c.mSoc 1 then
    .error ⟨"Invalid Initialization Data", "Initial State of Charge not in (0-1)."⟩
  else
    .ok ()

/-- The member function `GunnsElectBatteryCell::initialize`: the six fields are assigned from the
arguments, then `validate()` runs.  The first component is the cell after the call (also when
`validate` throws), the second is the outcome. -/
def GunnsElectBatteryCell.initialize ( _c : GunnsElectBatteryCell)
    (configData : GunnsElectBatteryCellConfigData) (inputData : GunnsElectBatteryCellInputData)
    (name : String) : GunnsElectBatteryCell × Except TsInitializationException Unit :=
  let c1 : GunnsElectBatteryCell :=
    { mResistance := configData.mResistance
      mMaxCapacity := configData.mMaxCapacity
      mMalfOpenCircuit := inputData.mMalfOpenCircuit
      mMalfShortCircuit := inputData.mMalfShortCircuit
      mSoc := inputData.mSoc
      mName := name }
  (c1, c1.validate)

/-- The member function `GunnsElectBatteryCell::updateSoc`, instrumented: the first component is
the cell after the call, the second lists the divisors of the divisions the call evaluates, in
evaluation order. -/
def GunnsElectBatteryCell.updateSocTraced (c : GunnsElectBatteryCell) (current timeStep : ℚ) :
    GunnsElectBatteryCell × List ℚ :=
  if c.mMalfShortCircuit then
    ({ c with mSoc := 0 }, [])
  else if !c.mMalfOpenCircuit then
    let r : GunnsElectBatteryCell × List ℚ :=
      if c.mMaxCapacity > DBL_EPSILON then
        ({ c with mSoc := c.mSoc - current * timeStep / c.mMaxCapacity / SEC_PER_HR },
          [c.mMaxCapacity, SEC_PER_HR])
      else
        ({ c with mSoc := 0 }, [])
    ({ r.1 with mSoc := limitRange 0 r.1.mSoc 1 }, r.2)
  else
    (c, [])

/-- The cell after `GunnsElectBatteryCell::updateSoc(current, timeStep)`. -/
def GunnsElectBatteryCell.updateSoc (c : GunnsElectBatteryCell) (current timeStep : ℚ) :
    GunnsElectBatteryCell :=
  (c.updateSocTraced current timeStep).1

/-- The divisors of the divisions that `updateSoc(current, timeStep)` evaluates. -/
def GunnsElectBatteryCell.updateSocDivisors (c : GunnsElectBatteryCell) (current timeStep : ℚ) :
    List ℚ :=
  (c.updateSocTraced current timeStep).2

/-- The member function `GunnsElectBatteryCell::getEffectiveSoc`. -/
def GunnsElectBatteryCell.getEffectiveSoc (c : GunnsElectBatteryCell) : ℚ :=
  if c.mMalfOpenCircuit || c.mMalfShortCircuit then 0 else c.mSoc

/-- The member function `GunnsElectBatteryCell::getEffectiveResistance`. -/
def GunnsElectBatteryCell.getEffectiveResistance (c : GunnsElectBatteryCell) : ℚ :=
  if c.mMalfShortCircuit then DBL_EPSILON
  else if c.mMalfOpenCircuit then 1 / DBL_EPSILON
  else c.mResistance

/-- The member function `GunnsElectBatteryCell::getEffectiveVoltage`; the table behind the
pointer `socVocTable` is represented by its lookup function `get`. -/
def GunnsElectBatteryCell.getEffectiveVoltage (c : GunnsElectBatteryCell) (socVocTable : ℚ → ℚ) :
    ℚ :=
  if c.mMalfOpenCircuit || c.mMalfShortCircuit then 0 else socVocTable c.mSoc

/-- The cell after a finite sequence of `updateSoc` calls; each step first sets the two
malfunction flags (they are public fields an operator may change between calls) and then calls
`updateSoc` with that step's current and time step. -/
def runUpdateSoc (c : GunnsElectBatteryCell) : List (Bool × Bool × ℚ × ℚ) → GunnsElectBatteryCell
  | [] => c
  | (fo, fs, current, timeStep) :: rest =>
    runUpdateSoc
      (({ c with mMalfOpenCircuit := fo, mMalfShortCircuit := fs }).updateSoc current timeStep)
      rest

/-- A call of a `const` member function computing `f`: the value it returns and the cell after
the call.  A `const` member function assigns no field, so the cell after is the cell before. -/
def constCall {α : Type} (f : GunnsElectBatteryCell → α) (c : GunnsElectBatteryCell) :
    α × GunnsElectBatteryCell :=
  (f c, c)

/-- A nominal cell used as a concrete input: no malfunction, 0.01 ohm, 10 amp*hr, half
charged. -/
def sampleCell : GunnsElectBatteryCell :=
  { mMalfOpenCircuit := false, mMalfShortCircuit := false, mResistance := 1 / 100,
    mMaxCapacity := 10, mSoc := 1 / 2, mName := "cell0" }

/-- The sample cell with the short-circuit malfunction set, and the open-circuit one as given. -/
def shortedCell ( open_ : Bool) : GunnsElectBatteryCell :=
  { sampleCell with mMalfOpenCircuit := open_, mMalfShortCircuit := true }

/-- The sample cell with only the open-circuit malfunction set. -/
def openCell : GunnsElectBatteryCell :=
  { sampleCell with mMalfOpenCircuit := true }

/-- The sample cell with a maximum capacity of exactly `DBL_EPSILON`. -/
def tinyCell : GunnsElectBatteryCell :=
  { sampleCell with mMaxCapacity := DBL_EPSILON }

/-- A linear open-circuit voltage table: 3.0 V at state of charge 0, 4.2 V at 1. -/
def linearVocTable (soc : ℚ) : ℚ := 3 + 6 / 5 * soc

/-! ## The battery pack (`GunnsElectBattery`)

`GunnsElectBattery.hh` declares the data members and the signatures of the member functions; the
bodies of the member functions (`GunnsElectBattery.cpp`) are not among the sources, so the
functions below are modelled from the specification. -/

/-- Configuration data of the battery (`GunnsElectBatteryConfigData`), with the `name` of its
base class; the table pointer `mSocVocTable` is `none` when null, else the table's lookup
function. -/
structure GunnsElectBatteryConfigData where
  mName : String
  mNumCells : Int
  mCellsInParallel : Bool
  mCellResistance : ℚ
  mInterconnectResistance : ℚ
  mMaxCapacity : ℚ
  mSocVocTable : Option (ℚ → ℚ)

/-- Input data of the battery (`GunnsElectBatteryInputData`). -/
structure GunnsElectBatteryInputData where
  mSoc : ℚ

/-- The data members of `GunnsElectBattery`, with the two terms of its base class that the
battery publishes to the network: the conductance and the source potential. -/
structure GunnsElectBattery where
  mCells : List GunnsElectBatteryCell
  mNumCells : Int
  mCellsInParallel : Bool
  mInterconnectResistance : ℚ
  mSocVocTable : ℚ → ℚ
  mSoc : ℚ
  mCurrent : ℚ
  mVoltage : ℚ
  mConductance : ℚ
  mSourcePotential : ℚ

/-- The inline accessor `GunnsElectBattery::getVoltage`. -/
def GunnsElectBattery.getVoltage (p : GunnsElectBattery) : ℚ := p.mVoltage

/-- The inline accessor `GunnsElectBattery::getSoc`. -/
def GunnsElectBattery.getSoc (p : GunnsElectBattery) : ℚ := p.mSoc

/-- A loop over the cell array that accumulates `f` of each cell, starting from 0. -/
def accumulateCells (f : GunnsElectBatteryCell → ℚ) (cells : List GunnsElectBatteryCell) : ℚ :=
  cells.foldl (fun acc c => acc + f c) 0

/-- Modelled from the spec: `GunnsElectBattery::computeSeriesResistance` (its body is in the
absent `GunnsElectBattery.cpp`): the sum of each cell's effective resistance, plus the
interconnect resistance once. -/
def GunnsElectBattery.computeSeriesResistance (p : GunnsElectBattery) : ℚ :=
  accumulateCells GunnsElectBatteryCell.getEffectiveResistance p.mCells
    + p.mInterconnectResistance

/-- Modelled from the spec: the sum of reciprocals of each cell's effective resistance, the
conductance sum inside `GunnsElectBattery::computeParallelResistance`. -/
def GunnsElectBattery.parallelConductanceSum (p : GunnsElectBattery) : ℚ :=
  accumulateCells (fun c => 1 / c.getEffectiveResistance) p.mCells

/-- Modelled from the spec: `GunnsElectBattery::computeParallelResistance` (its body is in the
absent `GunnsElectBattery.cpp`): the reciprocal of the sum of reciprocals of each cell's
effective resistance, plus the interconnect resistance once. -/
def GunnsElectBattery.computeParallelResistance (p : GunnsElectBattery) : ℚ :=
  1 / p.parallelConductanceSum + p.mInterconnectResistance

/-- Modelled from the spec: `GunnsElectBattery::computeSeriesVoc` (its body is in the absent
`GunnsElectBattery.cpp`): the sum of each cell's effective voltage. -/
def GunnsElectBattery.computeSeriesVoc (p : GunnsElectBattery) : ℚ :=
  accumulateCells (fun c => c.getEffectiveVoltage p.mSocVocTable) p.mCells

/-- The running maximum of the effective voltages of `cells`, starting from `v`. -/
def maxVoltageFrom (table : ℚ → ℚ) (v : ℚ) (cells : List GunnsElectBatteryCell) : ℚ :=
  cells.foldl (fun acc c => max acc (c.getEffectiveVoltage table)) v

/-- Modelled from the spec: `GunnsElectBattery::computeParallelVoc` (its body is in the absent
`GunnsElectBattery.cpp`): the maximum effective voltage among the cells (0 for no cells). -/
def GunnsElectBattery.computeParallelVoc (p : GunnsElectBattery) : ℚ :=
  match p.mCells with
  | [] => 0
  | c :: cs => maxVoltageFrom p.mSocVocTable (c.getEffectiveVoltage p.mSocVocTable) cs

/-- The total internal resistance by the rule of the active topology (step 1 of
`updateState`). -/
def GunnsElectBattery.totalResistance (p : GunnsElectBattery) : ℚ :=
  if p.mCellsInParallel then p.computeParallelResistance else p.computeSeriesResistance

/-- The total open-circuit voltage by the rule of the active topology (step 2 of
`updateState`). -/
def GunnsElectBattery.totalVoc (p : GunnsElectBattery) : ℚ :=
  if p.mCellsInParallel then p.computeParallelVoc else p.computeSeriesVoc

/-- Modelled from the spec: the guarded reciprocal of step 3 of `updateState` (its body is in the
absent `GunnsElectBattery.cpp`).  A near-infinite resistance yields zero conductance; a near-zero
resistance is clamped before the division.  The spec gives neither threshold, so `nearZero` and
`nearInfinite` are parameters.  The second component lists the divisor of the division
evaluated, if any. -/
def guardedConductance (nearZero nearInfinite resistance : ℚ) : ℚ × List ℚ :=
  if nearInfinite ≤ resistance then (0, [])
  else (1 / max resistance nearZero, [max resistance nearZero])

/-- Modelled from the spec: `GunnsElectBattery::updateState` (its body is in the absent
`GunnsElectBattery.cpp`): the conductance is the guarded reciprocal of the total resistance and
the source potential is the total open-circuit voltage.  The second component lists the divisor
of the reciprocal, if it is evaluated. -/
def GunnsElectBattery.updateStateTraced (nearZero nearInfinite : ℚ) (p : GunnsElectBattery)
    ( _timeStep : ℚ) : GunnsElectBattery × List ℚ :=
  let g := guardedConductance nearZero nearInfinite p.totalResistance
  ({ p with mConductance := g.1, mSourcePotential := p.totalVoc }, g.2)

/-- The pack after `GunnsElectBattery::updateState(timeStep)`. -/
def GunnsElectBattery.updateState (nearZero nearInfinite : ℚ) (p : GunnsElectBattery)
    (timeStep : ℚ) : GunnsElectBattery :=
  (p.updateStateTraced nearZero nearInfinite timeStep).1

/-- The cells of a pack that are not open-circuited. -/
def GunnsElectBattery.activeCells (p : GunnsElectBattery) : List GunnsElectBatteryCell :=
  p.mCells.filter (fun c => !c.mMalfOpenCircuit)

/-- Modelled from the spec: `GunnsElectBattery::updateOutputs` (its body is in the absent
`GunnsElectBattery.cpp`): the voltage is the closed-circuit potential of the external port, which
the network solution supplies (`portPotential`), and the aggregate soc is the mean of
`getEffectiveSoc()` across the cells that are not open-circuited; if every cell is open-circuited
the soc is 0 and the voltage is 0. -/
def GunnsElectBattery.updateOutputs (p : GunnsElectBattery) (portPotential : ℚ) :
    GunnsElectBattery :=
  if p.activeCells.isEmpty then
    { p with mSoc := 0, mVoltage := 0 }
  else
    { p with
      mSoc := accumulateCells GunnsElectBatteryCell.getEffectiveSoc p.activeCells
        / (p.activeCells.length : ℚ)
      mVoltage := portPotential }

/-- Modelled from the spec: `GunnsElectBattery::validate` (its body is in the absent
`GunnsElectBattery.cpp`): the configuration needs `numCells > 0`, `cellResistance ≥ 0`,
`interconnectResistance ≥ 0`, `maxCapacity > epsilon` and a voltage table, the input needs a soc
in [0,1]; any violated precondition throws.  The texts of the messages are not given by the
spec. -/
def GunnsElectBattery.validate (configData : GunnsElectBatteryConfigData)
    (inputData : GunnsElectBatteryInputData) : Except TsInitializationException Unit :=
  if ¬ (0 < configData.mNumCells) then
    .error ⟨"Invalid Configuration Data", "Number of cells < 1."⟩
  else if configData.mCellResistance < 0 then
    .error ⟨"Invalid Configuration Data", "Cell resistance < 0."⟩
  else if configData.mInterconnectResistance < 0 then
    .error ⟨"Invalid Configuration Data", "Interconnect resistance < 0."⟩
  else if ¬ (configData.mMaxCapacity > DBL_EPSILON) then
    .error ⟨"Invalid Configuration Data", "Maximum capacity not above DBL_EPSILON."⟩
  else if configData.mSocVocTable.isNone then
    .error ⟨"Invalid Configuration Data", "Missing voltage table."⟩
  else if !isInRange 0 inputData.mSoc 1 then
    .error ⟨"Invalid Input Data", "Initial State of Charge not in (0-1)."⟩
  else
    .ok ()

/-- The instance name given to the cell at index `i` of a pack; the spec does not say how the pack
names its cells, only that a cell needs a name that is not empty. -/
def cellName (packName : String) (i : Nat) : String :=
  packName ++ ".mCells_" ++ toString i

/-- Modelled from the spec: the construction of the cells in `GunnsElectBattery::initialize`: one
call of the cell's `initialize` per index, each with the shared cell resistance, capacity and
initial soc and with no malfunction; a cell that throws aborts the construction. -/
def initializeCells (configData : GunnsElectBatteryConfigData)
    (inputData : GunnsElectBatteryInputData) :
    List Nat → Except TsInitializationException (List GunnsElectBatteryCell)
  | [] => .ok []
  | i :: rest =>
    match ( GunnsElectBatteryCell.initialize GunnsElectBatteryCell.default
        { mResistance := configData.mCellResistance, mMaxCapacity := configData.mMaxCapacity }
        { mMalfOpenCircuit := false, mMalfShortCircuit := false, mSoc := inputData.mSoc }
        (cellName configData.mName i)) with
    | (_, .error e) => .error e
    | (c, .ok _) =>
      match initializeCells configData inputData rest with
      | .error e => .error e
      | .ok cs => .ok (c :: cs)

/-- Modelled from the spec: `GunnsElectBattery::initialize` (its body is in the absent
`GunnsElectBattery.cpp`; the wiring of the two network ports is left to the link interface):
validate the configuration and input, then allocate the cell array to `numCells` entries and
construct each cell.  A failure yields the exception and no pack. -/
def GunnsElectBattery.initialize (p : GunnsElectBattery)
    (configData : GunnsElectBatteryConfigData) (inputData : GunnsElectBatteryInputData) :
    Except TsInitializationException GunnsElectBattery :=
  match GunnsElectBattery.validate configData inputData with
  | .error e => .error e
  | .ok _ =>
    match configData.mSocVocTable with
    | none => .error ⟨"Invalid Configuration Data", "Missing voltage table."⟩
    | some table =>
      match initializeCells configData inputData (List.range configData.mNumCells.toNat) with
      | .error e => .error e
      | .ok cells =>
        .ok { p with
          mCells := cells
          mNumCells := configData.mNumCells
          mCellsInParallel := configData.mCellsInParallel
          mInterconnectResistance := configData.mInterconnectResistance
          mSocVocTable := table }

/-- A pack around the given cells, with the linear voltage table and no outputs computed yet. -/
def packOf (parallel : Bool) (interconnect : ℚ) (cells : List GunnsElectBatteryCell) :
    GunnsElectBattery :=
  { mCells := cells, mNumCells := cells.length, mCellsInParallel := parallel,
    mInterconnectResistance := interconnect, mSocVocTable := linearVocTable,
    mSoc := 0, mCurrent := 0, mVoltage := 0, mConductance := 0, mSourcePotential := 0 }

/-- Four nominal cells (0.01 ohm, half charged) in series, 0.02 ohm interconnect. -/
def seriesPack4 : GunnsElectBattery :=
  packOf false (1 / 50) [sampleCell, sampleCell, sampleCell, sampleCell]

/-- The same series pack with the cell at index 2 short-circuited. -/
def seriesPack4Shorted : GunnsElectBattery :=
  packOf false (1 / 50) [sampleCell, sampleCell, shortedCell false, sampleCell]

/-- A nominal cell of 0.05 ohm, half charged. -/
def cell50mOhm : GunnsElectBatteryCell :=
  { sampleCell with mResistance := 1 / 20 }

/-- Three 0.05 ohm cells in parallel, 0.01 ohm interconnect. -/
def parallelPack3 : GunnsElectBattery :=
  packOf true (1 / 100) [cell50mOhm, cell50mOhm, cell50mOhm]

/-- Two nominal cells in series with an open-circuited cell between them. -/
def seriesPackOpen : GunnsElectBattery :=
  packOf false (1 / 50) [sampleCell, openCell, sampleCell]

/-- Two 0.05 ohm cells in parallel with a short-circuited cell between them. -/
def parallelPackShorted : GunnsElectBattery :=
  packOf true (1 / 100) [cell50mOhm, shortedCell false, cell50mOhm]

/-- A pack with a nominal cell, an open-circuited cell, a short-circuited cell and a fully
charged cell. -/
def mixedPack : GunnsElectBattery :=
  packOf true (1 / 100)
    [sampleCell, openCell, shortedCell false, { sampleCell with mSoc := 1 }]

/-- A pack whose cells are all open-circuited. -/
def allOpenPack : GunnsElectBattery :=
  packOf false (1 / 50) [openCell, openCell]

/-- Two open-circuited cells in parallel, no interconnect resistance. -/
def parallelPackAllOpen : GunnsElectBattery :=
  packOf true 0 [openCell, openCell]

/-- A default-constructed pack: no cells. -/
def emptyPack : GunnsElectBattery := packOf false 0 []

/-- A valid pack configuration: four cells in series, 0.01 ohm each, 0.02 ohm interconnect,
10 amp*hr, linear voltage table. -/
def goodPackConfig : GunnsElectBatteryConfigData :=
  { mName := "battery", mNumCells := 4, mCellsInParallel := false, mCellResistance := 1 / 100,
    mInterconnectResistance := 1 / 50, mMaxCapacity := 10, mSocVocTable := some linearVocTable }

/-- The valid configuration with the number of cells set to 0. -/
def zeroCellsPackConfig : GunnsElectBatteryConfigData :=
  { goodPackConfig with mNumCells := 0 }

/-- The valid configuration with a negative cell resistance. -/
def negativeResistancePackConfig : GunnsElectBatteryConfigData :=
  { goodPackConfig with mCellResistance := -1 / 100 }

/-- A pack input: half charged. -/
def halfChargedPackInput : GunnsElectBatteryInputData := { mSoc := 1 / 2 }

/-- A cell configuration whose maximum capacity is exactly `DBL_EPSILON`. -/
def epsilonCapacityConfig : GunnsElectBatteryCellConfigData :=
  { mResistance := 1 / 100, mMaxCapacity := DBL_EPSILON }

/-- A nominal cell configuration: 0.01 ohm, 10 amp*hr. -/
def nominalCellConfig : GunnsElectBatteryCellConfigData :=
  { mResistance := 1 / 100, mMaxCapacity := 10 }

/-- A nominal cell input: no malfunction, half charged. -/
def nominalCellInput : GunnsElectBatteryCellInputData :=
  { mMalfOpenCircuit := false, mMalfShortCircuit := false, mSoc := 1 / 2 }

/-- A cell configuration with a negative resistance. -/
def negativeResistanceCellConfig : GunnsElectBatteryCellConfigData :=
  { mResistance := -1, mMaxCapacity := 10 }

/-- A cell input with the open-circuit malfunction set. -/
def openCellInput : GunnsElectBatteryCellInputData :=
  { mMalfOpenCircuit := true, mMalfShortCircuit := false, mSoc := 1 / 2 }

/-- A cell configuration with a resistance of exactly 0. -/
def zeroResistanceCellConfig : GunnsElectBatteryCellConfigData :=
  { mResistance := 0, mMaxCapacity := 10 }

/-! ## Binary64 arithmetic

The exact reading above decides every claim about one evaluation of the code.  Two different
sequences of operations that agree in exact arithmetic can differ after rounding, so for such a
comparison the cell's integration step is also given with each operation rounded. -/

/-- Rounding of a rational to the nearest integer, a tie going to the even integer. -/
def roundHalfEven (y : ℚ) : ℤ :=
  if y - ⌊y⌋ < 1 / 2 then ⌊y⌋
  else if 1 / 2 < y - ⌊y⌋ then ⌊y⌋ + 1
  else if ⌊y⌋ % 2 = 0 then ⌊y⌋
  else ⌊y⌋ + 1

/-- The spacing of the binary64 values around `x`: `2^(e-52)` when `2^e ≤ |x| < 2^(e+1)`, and
the subnormal spacing `2^-1074` when that would be smaller. -/
def doubleSpacing (x : ℚ) : ℚ :=
  (2 : ℚ) ^ max (Int.log 2 |x| - 52) (-1074)

/-- The binary64 value that an arithmetic operation with exact result `x` returns under the
default IEEE-754 rounding (to nearest, ties to even): the multiple of the spacing around `x` that
is nearest to `x`.  A result of magnitude `2^1024` or more, which binary64 turns into an infinity,
is rounded as if the exponent had no upper limit, so this agrees with binary64 where no operation
overflows. -/
def roundDouble (x : ℚ) : ℚ :=
  (roundHalfEven (x / doubleSpacing x) : ℚ) * doubleSpacing x

/-- The member function `GunnsElectBatteryCell::updateSoc` in binary64 arithmetic: the same
branches as `updateSocTraced`, with each of the four operations of
`mSoc -= current * timeStep / mMaxCapacity / SEC_PER_HR` rounded.  The comparisons and the clamp
do not round. -/
def GunnsElectBatteryCell.updateSocDouble (c : GunnsElectBatteryCell) (current timeStep : ℚ) :
    GunnsElectBatteryCell :=
  if c.mMalfShortCircuit then
    { c with mSoc := 0 }
  else if !c.mMalfOpenCircuit then
    let c1 : GunnsElectBatteryCell :=
      if c.mMaxCapacity > DBL_EPSILON then
        { c with mSoc := roundDouble (c.mSoc - roundDouble (roundDouble
            (roundDouble (current * timeStep) / c.mMaxCapacity) / SEC_PER_HR)) }
      else
        { c with mSoc := 0 }
    { c1 with mSoc := limitRange 0 c1.mSoc 1 }
  else
    c

/-! ## Auxiliary facts -/

theorem DBL_EPSILON_pos : 0 < DBL_EPSILON := by
  unfold DBL_EPSILON; positivity

theorem limitRange_eq_max_min (x : ℚ) : limitRange 0 x 1 = max 0 (min 1 x) := by
  unfold limitRange
  by_cases h0 : x < 0
  · rw [if_pos h0, min_eq_right (by linarith), max_eq_left (by linarith)]
  · by_cases h1 : 1 < x
    · rw [if_neg h0, if_pos h1, min_eq_left (by linarith), max_eq_right (by norm_num)]
    · rw [if_neg h0, if_neg h1, min_eq_right (by linarith), max_eq_right (by linarith)]

theorem limitRange_nonneg (x : ℚ) : 0 ≤ limitRange 0 x 1 := by
  rw [limitRange_eq_max_min]; exact le_max_left _ _

theorem limitRange_le_one (x : ℚ) : limitRange 0 x 1 ≤ 1 := by
  rw [limitRange_eq_max_min]; exact max_le (by norm_num) (min_le_left _ _)

theorem limitRange_of_mem {x : ℚ} (h0 : 0 ≤ x) (h1 : x ≤ 1) : limitRange 0 x 1 = x := by
  unfold limitRange
  rw [if_neg (not_lt.mpr h0), if_neg (not_lt.mpr h1)]

/-- The three branches of `updateSoc`, as equations for the new state of charge. -/
theorem updateSoc_soc_eq (c : GunnsElectBatteryCell) (current timeStep : ℚ) :
    (c.updateSoc current timeStep).mSoc =
      if c.mMalfShortCircuit then 0
      else if c.mMalfOpenCircuit then c.mSoc
      else if c.mMaxCapacity > DBL_EPSILON then
        limitRange 0 (c.mSoc - current * timeStep / c.mMaxCapacity / SEC_PER_HR) 1
      else limitRange 0 0 1 := by
  unfold GunnsElectBatteryCell.updateSoc GunnsElectBatteryCell.updateSocTraced
  cases hs : c.mMalfShortCircuit <;> cases ho : c.mMalfOpenCircuit <;>
    by_cases hc : c.mMaxCapacity > DBL_EPSILON <;> simp [hc]

theorem updateSoc_soc_mem (c : GunnsElectBatteryCell) (current timeStep : ℚ)
    (h0 : 0 ≤ c.mSoc) (h1 : c.mSoc ≤ 1) :
    0 ≤ (c.updateSoc current timeStep).mSoc ∧ (c.updateSoc current timeStep).mSoc ≤ 1 := by
  rw [updateSoc_soc_eq]
  split_ifs
  · exact ⟨le_refl _, by norm_num⟩
  · exact ⟨h0, h1⟩
  · exact ⟨limitRange_nonneg _, limitRange_le_one _⟩
  · exact ⟨limitRange_nonneg _, limitRange_le_one _⟩

theorem runUpdateSoc_soc_mem (steps : List (Bool × Bool × ℚ × ℚ)) :
    ∀ c : GunnsElectBatteryCell, 0 ≤ c.mSoc → c.mSoc ≤ 1 →
      0 ≤ (runUpdateSoc c steps).mSoc ∧ (runUpdateSoc c steps).mSoc ≤ 1 := by
  induction steps with
  | nil => intro c h0 h1; exact ⟨h0, h1⟩
  | cons s rest ih =>
    intro c h0 h1
    obtain ⟨fo, fs, current, timeStep⟩ := s
    have hstep := updateSoc_soc_mem
      { c with mMalfOpenCircuit := fo, mMalfShortCircuit := fs } current timeStep h0 h1
    exact ih _ hstep.1 hstep.2

theorem validate_ok_iff (c : GunnsElectBatteryCell) :
    c.validate = .ok () ↔
      c.mName ≠ "" ∧ 0 ≤ c.mResistance ∧ DBL_EPSILON ≤ c.mMaxCapacity ∧
        0 ≤ c.mSoc ∧ c.mSoc ≤ 1 := by
  unfold GunnsElectBatteryCell.validate isInRange
  by_cases hn : c.mName = ""
  · simp [hn]
  · by_cases hr : c.mResistance < 0
    · simp [hn, hr]
    · by_cases hc : c.mMaxCapacity < DBL_EPSILON
      · simp [hn, hr, hc]
      · by_cases h0 : 0 ≤ c.mSoc
        · by_cases h1 : c.mSoc ≤ 1
          · simp [hn, hr, hc, h0, h1, not_lt.mp hr, not_lt.mp hc]
          · simp [hn, hr, hc, h0, h1]
        · simp [hn, hr, hc, h0]

theorem validate_error_iff (c : GunnsElectBatteryCell) :
    (∃ e, c.validate = .error e) ↔ ¬ c.validate = .ok () := by
  cases h : c.validate with
  | error e => simp
  | ok u => cases u; simp

theorem foldl_add_eq (f : GunnsElectBatteryCell → ℚ) (cells : List GunnsElectBatteryCell) :
    ∀ a : ℚ, cells.foldl (fun acc c => acc + f c) a = a + (cells.map f).sum := by
  induction cells with
  | nil => intro a; simp
  | cons c cs ih =>
    intro a
    rw [List.foldl_cons, ih, List.map_cons, List.sum_cons, add_assoc]

theorem accumulateCells_eq_sum (f : GunnsElectBatteryCell → ℚ)
    (cells : List GunnsElectBatteryCell) : accumulateCells f cells = (cells.map f).sum := by
  unfold accumulateCells
  rw [foldl_add_eq, zero_add]

theorem le_maxVoltageFrom (table : ℚ → ℚ) (cells : List GunnsElectBatteryCell) :
    ∀ v : ℚ, v ≤ maxVoltageFrom table v cells := by
  induction cells with
  | nil => intro v; exact le_refl v
  | cons c cs ih =>
    intro v
    exact le_trans (le_max_left _ _) (ih (max v (c.getEffectiveVoltage table)))

theorem mem_le_maxVoltageFrom (table : ℚ → ℚ) (cells : List GunnsElectBatteryCell) :
    ∀ v : ℚ, ∀ c ∈ cells, c.getEffectiveVoltage table ≤ maxVoltageFrom table v cells := by
  induction cells with
  | nil => intro v c hc; cases hc
  | cons d ds ih =>
    intro v c hc
    rcases List.mem_cons.mp hc with h | h
    · subst h
      exact le_trans (le_max_right v _)
        (le_maxVoltageFrom table ds (max v (c.getEffectiveVoltage table)))
    · exact ih _ c h

theorem maxVoltageFrom_attained (table : ℚ → ℚ) (cells : List GunnsElectBatteryCell) :
    ∀ v : ℚ, maxVoltageFrom table v cells = v ∨
      ∃ c ∈ cells, maxVoltageFrom table v cells = c.getEffectiveVoltage table := by
  induction cells with
  | nil => intro v; exact Or.inl rfl
  | cons d ds ih =>
    intro v
    have hstep : maxVoltageFrom table v (d :: ds)
        = maxVoltageFrom table (max v (d.getEffectiveVoltage table)) ds := rfl
    rcases ih (max v (d.getEffectiveVoltage table)) with h | ⟨c, hc, h⟩
    · rcases max_choice v (d.getEffectiveVoltage table) with hm | hm
      · exact Or.inl (by rw [hstep, h, hm])
      · exact Or.inr ⟨d, List.mem_cons_self _ _, by rw [hstep, h, hm]⟩
    · exact Or.inr ⟨c, List.mem_cons_of_mem _ hc, by rw [hstep, h]⟩

theorem getEffectiveSoc_mem (c : GunnsElectBatteryCell) (h0 : 0 ≤ c.mSoc) (h1 : c.mSoc ≤ 1) :
    0 ≤ c.getEffectiveSoc ∧ c.getEffectiveSoc ≤ 1 := by
  unfold GunnsElectBatteryCell.getEffectiveSoc
  split_ifs
  · exact ⟨le_refl _, zero_le_one⟩
  · exact ⟨h0, h1⟩

theorem sum_map_bounds (f : GunnsElectBatteryCell → ℚ) (cells : List GunnsElectBatteryCell)
    (h : ∀ c ∈ cells, 0 ≤ f c ∧ f c ≤ 1) :
    0 ≤ (cells.map f).sum ∧ (cells.map f).sum ≤ (cells.length : ℚ) := by
  induction cells with
  | nil => simp
  | cons c cs ih =>
    have hc := h c (List.mem_cons_self _ _)
    have hcs := ih (fun d hd => h d (List.mem_cons_of_mem _ hd))
    rw [List.map_cons, List.sum_cons, List.length_cons]
    push_cast
    constructor <;> linarith [hc.1, hc.2, hcs.1, hcs.2]

theorem activeCells_eq_nil_iff (p : GunnsElectBattery) :
    p.activeCells = [] ↔ ∀ c ∈ p.mCells, c.mMalfOpenCircuit = true := by
  unfold GunnsElectBattery.activeCells
  rw [List.filter_eq_nil_iff]
  constructor
  · intro h c hc
    have := h c hc
    simpa using this
  · intro h c hc
    simp [h c hc]

theorem cellName_ne_empty (packName : String) (i : Nat) : cellName packName i ≠ "" := by
  intro h
  have hlen := congrArg String.length h
  unfold cellName at hlen
  rw [String.length_append, String.length_append] at hlen
  have h8 : (".mCells_" : String).length = 8 := by decide
  have h0 : ("" : String).length = 0 := by decide
  omega

theorem pack_validate_ok_iff (configData : GunnsElectBatteryConfigData)
    (inputData : GunnsElectBatteryInputData) :
    GunnsElectBattery.validate configData inputData = .ok () ↔
      0 < configData.mNumCells ∧ 0 ≤ configData.mCellResistance ∧
        0 ≤ configData.mInterconnectResistance ∧ configData.mMaxCapacity > DBL_EPSILON ∧
        configData.mSocVocTable ≠ none ∧ 0 ≤ inputData.mSoc ∧ inputData.mSoc ≤ 1 := by
  unfold GunnsElectBattery.validate isInRange
  by_cases hn : 0 < configData.mNumCells
  · by_cases hr : configData.mCellResistance < 0
    · simp [hn, hr]
    · by_cases hi : configData.mInterconnectResistance < 0
      · simp [hn, hr, hi]
      · by_cases hc : configData.mMaxCapacity > DBL_EPSILON
        · cases ht : configData.mSocVocTable with
          | none => simp [hn, hr, hi, hc]
          | some t =>
            by_cases h0 : 0 ≤ inputData.mSoc
            · by_cases h1 : inputData.mSoc ≤ 1
              · simp [hn, hr, hi, hc, h0, h1, not_lt.mp hr, not_lt.mp hi]
              · simp [hn, hr, hi, hc, h0, h1]
            · simp [hn, hr, hi, hc, h0]
        · simp [hn, hr, hi, hc]
  · simp [hn]

theorem pack_validate_cases (configData : GunnsElectBatteryConfigData)
    (inputData : GunnsElectBatteryInputData) :
    GunnsElectBattery.validate configData inputData = .ok () ∨
      ∃ e, GunnsElectBattery.validate configData inputData = .error e := by
  cases h : GunnsElectBattery.validate configData inputData with
  | error e => exact Or.inr ⟨e, rfl⟩
  | ok u => cases u; exact Or.inl rfl

theorem initializeCells_ok (configData : GunnsElectBatteryConfigData)
    (inputData : GunnsElectBatteryInputData) (hr : 0 ≤ configData.mCellResistance)
    (hc : DBL_EPSILON ≤ configData.mMaxCapacity) (h0 : 0 ≤ inputData.mSoc)
    (h1 : inputData.mSoc ≤ 1) (l : List Nat) :
    initializeCells configData inputData l = .ok (l.map (fun i =>
      { mMalfOpenCircuit := false, mMalfShortCircuit := false,
        mResistance := configData.mCellResistance, mMaxCapacity := configData.mMaxCapacity,
        mSoc := inputData.mSoc, mName := cellName configData.mName i })) := by
  induction l with
  | nil => rfl
  | cons i rest ih =>
    have hv : GunnsElectBatteryCell.validate
        { mMalfOpenCircuit := false, mMalfShortCircuit := false,
          mResistance := configData.mCellResistance, mMaxCapacity := configData.mMaxCapacity,
          mSoc := inputData.mSoc, mName := cellName configData.mName i } = .ok () :=
      (validate_ok_iff _).mpr ⟨cellName_ne_empty _ _, hr, hc, h0, h1⟩
    simp only [initializeCells, GunnsElectBatteryCell.initialize, hv, ih, List.map_cons]

theorem initializeCells_spec (configData : GunnsElectBatteryConfigData)
    (inputData : GunnsElectBatteryInputData) (l : List Nat) :
    ∀ cs, initializeCells configData inputData l = .ok cs →
      cs.length = l.length ∧
        ∀ c ∈ cs, c.mResistance = configData.mCellResistance ∧
          c.mMaxCapacity = configData.mMaxCapacity ∧ c.mSoc = inputData.mSoc := by
  induction l with
  | nil =>
    intro cs h
    simp only [initializeCells, Except.ok.injEq] at h
    subst h
    simp
  | cons i rest ih =>
    intro cs h
    simp only [initializeCells, GunnsElectBatteryCell.initialize] at h
    cases hv : GunnsElectBatteryCell.validate
        { mMalfOpenCircuit := false, mMalfShortCircuit := false,
          mResistance := configData.mCellResistance, mMaxCapacity := configData.mMaxCapacity,
          mSoc := inputData.mSoc, mName := cellName configData.mName i } with
    | error e => rw [hv] at h; cases h
    | ok u =>
      rw [hv] at h
      cases hrest : initializeCells configData inputData rest with
      | error e => rw [hrest] at h; cases h
      | ok cs1 =>
        rw [hrest] at h
        simp only [Except.ok.injEq] at h
        subst h
        obtain ⟨hlen, hall⟩ := ih cs1 hrest
        refine ⟨by simp [hlen], ?_⟩
        intro c hc
        rcases List.mem_cons.mp hc with hc | hc
        · subst hc; exact ⟨rfl, rfl, rfl⟩
        · exact hall c hc
theorem pack_initialize_ok_iff (p : GunnsElectBattery)
    (configData : GunnsElectBatteryConfigData) (inputData : GunnsElectBatteryInputData) :
    (∃ q, GunnsElectBattery.initialize p configData inputData = .ok q) ↔
      GunnsElectBattery.validate configData inputData = .ok () := by
  constructor
  · rintro ⟨q, hq⟩
    rcases pack_validate_cases configData inputData with h | ⟨e, h⟩
    · exact h
    · simp [ GunnsElectBattery.initialize, h] at hq
  · intro hv
    have hpre := (pack_validate_ok_iff configData inputData).mp hv
    obtain ⟨hn, hr, hi, hc, ht, h0, h1⟩ := hpre
    cases htab : configData.mSocVocTable with
    | none => exact absurd htab ht
    | some table =>
      simp only [ GunnsElectBattery.initialize, hv, htab,
        initializeCells_ok configData inputData hr (le_of_lt hc) h0 h1]
      exact ⟨_, rfl⟩

theorem pack_initialize_cells (p q : GunnsElectBattery)
    (configData : GunnsElectBatteryConfigData) (inputData : GunnsElectBatteryInputData)
    (hq : GunnsElectBattery.initialize p configData inputData = .ok q) :
    q.mNumCells = configData.mNumCells ∧
      initializeCells configData inputData (List.range configData.mNumCells.toNat)
        = .ok q.mCells := by
  unfold GunnsElectBattery.initialize at hq
  cases hv : GunnsElectBattery.validate configData inputData with
  | error e => rw [hv] at hq; cases hq
  | ok u =>
    rw [hv] at hq
    cases htab : configData.mSocVocTable with
    | none => rw [htab] at hq; cases hq
    | some table =>
      rw [htab] at hq
      cases hcs : initializeCells configData inputData
          (List.range configData.mNumCells.toNat) with
      | error e => rw [hcs] at hq; cases hq
      | ok cs =>
        rw [hcs] at hq
        simp only [Except.ok.injEq] at hq
        subst hq
        exact ⟨rfl, rfl⟩

theorem getEffectiveResistance_nonneg (c : GunnsElectBatteryCell) (h : 0 ≤ c.mResistance) :
    0 ≤ c.getEffectiveResistance := by
  unfold GunnsElectBatteryCell.getEffectiveResistance
  split_ifs
  · exact DBL_EPSILON_pos.le
  · exact (one_div_pos.mpr DBL_EPSILON_pos).le
  · exact h

theorem getEffectiveResistance_pos (c : GunnsElectBatteryCell)
    (h : c.mMalfShortCircuit = false → c.mMalfOpenCircuit = false → 0 < c.mResistance) :
    0 < c.getEffectiveResistance := by
  unfold GunnsElectBatteryCell.getEffectiveResistance
  cases hs : c.mMalfShortCircuit <;> cases ho : c.mMalfOpenCircuit
  · simpa using h hs ho
  · simpa using one_div_pos.mpr DBL_EPSILON_pos
  · simpa using DBL_EPSILON_pos
  · simpa using DBL_EPSILON_pos

theorem updateSoc_eq_with (c : GunnsElectBatteryCell) (current timeStep : ℚ) :
    c.updateSoc current timeStep = { c with mSoc := (c.updateSoc current timeStep).mSoc } := by
  obtain ⟨fo, fs, r, cap, soc, n⟩ := c
  unfold GunnsElectBatteryCell.updateSoc GunnsElectBatteryCell.updateSocTraced
  cases fs <;> cases fo <;> by_cases hc : cap > DBL_EPSILON <;> simp [hc]

theorem updateSoc_nominal_soc (c : GunnsElectBatteryCell) (current timeStep : ℚ)
    (hs : c.mMalfShortCircuit = false) (ho : c.mMalfOpenCircuit = false)
    (hc : c.mMaxCapacity > DBL_EPSILON) :
    (c.updateSoc current timeStep).mSoc =
      limitRange 0 (c.mSoc - current * timeStep / c.mMaxCapacity / SEC_PER_HR) 1 := by
  rw [updateSoc_soc_eq]
  simp only [hs, ho, hc, if_true, Bool.false_eq_true, if_false]

theorem updateSoc_guard_soc (c : GunnsElectBatteryCell) (current timeStep : ℚ)
    (hs : c.mMalfShortCircuit = false) (ho : c.mMalfOpenCircuit = false)
    (hc : c.mMaxCapacity ≤ DBL_EPSILON) : (c.updateSoc current timeStep).mSoc = 0 := by
  rw [updateSoc_soc_eq]
  simp only [hs, ho, not_lt.mpr hc, Bool.false_eq_true, if_false]
  exact limitRange_of_mem (le_refl 0) zero_le_one

/-- With a capacity above `DBL_EPSILON`, no malfunction and a soc in [0,1], a call of `updateSoc`
that moves no charge leaves the soc as it was. -/
theorem updateSoc_no_charge_of_capacity_above (c : GunnsElectBatteryCell) (current timeStep : ℚ)
    (hs : c.mMalfShortCircuit = false) (ho : c.mMalfOpenCircuit = false)
    (hc : c.mMaxCapacity > DBL_EPSILON) (h0 : 0 ≤ c.mSoc) (h1 : c.mSoc ≤ 1)
    (hq : current * timeStep = 0) : (c.updateSoc current timeStep).mSoc = c.mSoc := by
  rw [updateSoc_nominal_soc c current timeStep hs ho hc, hq]
  simp only [zero_div, sub_zero]
  exact limitRange_of_mem h0 h1

theorem limitRange_merge (s a b : ℚ) (h0 : 0 ≤ s) (h1 : s ≤ 1)
    (hsign : (0 ≤ a ∧ 0 ≤ b) ∨ (a ≤ 0 ∧ b ≤ 0)) :
    limitRange 0 (limitRange 0 (s - a) 1 - b) 1 = limitRange 0 (s - (a + b)) 1 := by
  unfold limitRange
  rcases hsign with ⟨ha, hb⟩ | ⟨ha, hb⟩ <;> split_ifs <;> linarith

theorem nominal_initialize_ok :
    ( GunnsElectBatteryCell.initialize GunnsElectBatteryCell.default nominalCellConfig
      nominalCellInput "cell1").2 = .ok () := by
  unfold GunnsElectBatteryCell.initialize
  rw [validate_ok_iff]
  refine ⟨by decide, ?_, ?_, ?_, ?_⟩ <;>
    norm_num [nominalCellConfig, nominalCellInput, DBL_EPSILON]

theorem negativeResistance_initialize_fails :
    ∃ e, ( GunnsElectBatteryCell.initialize sampleCell negativeResistanceCellConfig
      nominalCellInput "cell9").2 = .error e := by
  unfold GunnsElectBatteryCell.initialize
  rw [validate_error_iff, validate_ok_iff]
  norm_num [negativeResistanceCellConfig]

theorem zeroResistance_initialize_ok :
    ( GunnsElectBatteryCell.initialize GunnsElectBatteryCell.default zeroResistanceCellConfig
      nominalCellInput "cell2").2 = .ok () := by
  unfold GunnsElectBatteryCell.initialize
  rw [validate_ok_iff]
  refine ⟨by decide, ?_, ?_, ?_, ?_⟩ <;>
    norm_num [zeroResistanceCellConfig, nominalCellInput, DBL_EPSILON]

/-! ## Auxiliary facts on binary64 rounding -/

/-- The spacing around a value whose binade is known. -/
theorem doubleSpacing_eq (x : ℚ) (e : ℤ) (hlo : (2 : ℚ) ^ e ≤ |x|) (hhi : |x| < (2 : ℚ) ^ (e + 1))
    (he : -1074 ≤ e - 52) : doubleSpacing x = (2 : ℚ) ^ (e - 52) := by
  have hpos : 0 < |x| := lt_of_lt_of_le (zpow_pos (by norm_num) e) hlo
  have h1 : e ≤ Int.log 2 |x| :=
    (Int.zpow_le_iff_le_log (by norm_num) hpos).mp (by exact_mod_cast hlo)
  have h2 : Int.log 2 |x| < e + 1 :=
    (Int.lt_zpow_iff_log_lt (by norm_num) hpos).mp (by exact_mod_cast hhi)
  have hlog : Int.log 2 |x| = e := by omega
  unfold doubleSpacing
  rw [hlog, max_eq_left he]

theorem roundHalfEven_down (y : ℚ) (f : ℤ) (h1 : (f : ℚ) ≤ y) (h2 : y - f < 1 / 2) :
    roundHalfEven y = f := by
  have hf : ⌊y⌋ = f := Int.floor_eq_iff.mpr ⟨h1, by linarith⟩
  unfold roundHalfEven
  rw [hf, if_pos h2]

theorem roundHalfEven_up (y : ℚ) (f : ℤ) (h1 : 1 / 2 < y - f) (h2 : y < f + 1) :
    roundHalfEven y = f + 1 := by
  have hf : ⌊y⌋ = f := Int.floor_eq_iff.mpr ⟨by linarith, h2⟩
  unfold roundHalfEven
  rw [hf, if_neg (not_lt.mpr h1.le), if_pos h1]

/-- Evaluation of `roundDouble`: if `2^e ≤ |x| < 2^(e+1)` and `x / 2^(e-52)` is strictly within
a half of the integer `n`, then `x` rounds to `n * 2^(e-52)`. -/
theorem roundDouble_eq (x : ℚ) (e n : ℤ) (hlo : (2 : ℚ) ^ e ≤ |x|)
    (hhi : |x| < (2 : ℚ) ^ (e + 1)) (he : -1074 ≤ e - 52)
    (hn1 : (n : ℚ) - 1 / 2 < x / (2 : ℚ) ^ (e - 52))
    (hn2 : x / (2 : ℚ) ^ (e - 52) < (n : ℚ) + 1 / 2) :
    roundDouble x = (n : ℚ) * (2 : ℚ) ^ (e - 52) := by
  unfold roundDouble
  rw [doubleSpacing_eq x e hlo hhi he]
  by_cases hc : (n : ℚ) ≤ x / (2 : ℚ) ^ (e - 52)
  · rw [roundHalfEven_down _ n hc (by linarith)]
  · have hc' := not_le.mp hc
    have := roundHalfEven_up (x / (2 : ℚ) ^ (e - 52)) (n - 1)
      (by push_cast; linarith) (by push_cast; linarith)
    rw [this]
    push_cast
    ring

theorem roundHalfEven_error (y : ℚ) : |(roundHalfEven y : ℚ) - y| ≤ 1 / 2 := by
  have h1 : (⌊y⌋ : ℚ) ≤ y := Int.floor_le y
  have h2 : y < ⌊y⌋ + 1 := Int.lt_floor_add_one y
  unfold roundHalfEven
  split_ifs <;> rw [abs_le] <;> constructor <;> push_cast <;> linarith

theorem doubleSpacing_pos (x : ℚ) : 0 < doubleSpacing x := by
  unfold doubleSpacing
  exact zpow_pos (by norm_num) _

theorem roundDouble_zero : roundDouble 0 = 0 := by
  simp [roundDouble, roundHalfEven]

theorem doubleSpacing_le (x : ℚ) (hx : x ≠ 0) :
    doubleSpacing x ≤ |x| / 2 ^ 52 + 1 / 2 ^ 1074 := by
  have hpos : 0 < |x| := abs_pos.mpr hx
  have hlog : (2 : ℚ) ^ Int.log 2 |x| ≤ |x| := by
    have := Int.zpow_log_le_self (b := 2) (by norm_num) hpos
    exact_mod_cast this
  have h52 : (2 : ℚ) ^ (-52 : ℤ) = 1 / 2 ^ 52 := by norm_num
  have h1074 : (2 : ℚ) ^ (-1074 : ℤ) = 1 / 2 ^ 1074 := by norm_num
  unfold doubleSpacing
  rcases le_total (Int.log 2 |x| - 52) (-1074) with h | h
  · rw [max_eq_right h, h1074]
    have : 0 ≤ |x| / 2 ^ 52 := div_nonneg hpos.le (by positivity)
    linarith
  · rw [max_eq_left h, sub_eq_add_neg, zpow_add₀ (by norm_num : (2 : ℚ) ≠ 0), h52]
    have h2 : (2 : ℚ) ^ Int.log 2 |x| * (1 / 2 ^ 52) ≤ |x| * (1 / 2 ^ 52) :=
      mul_le_mul_of_nonneg_right hlog (by positivity)
    have h3 : |x| * (1 / 2 ^ 52) = |x| / 2 ^ 52 := by ring
    have h4 : (0 : ℚ) ≤ 1 / 2 ^ 1074 := by positivity
    linarith

/-- The rounding error of `roundDouble` is at most half a unit in the last place. -/
theorem roundDouble_error (x : ℚ) :
    |roundDouble x - x| ≤ |x| / 2 ^ 53 + 1 / 2 ^ 1075 := by
  by_cases hx : x = 0
  · rw [hx, roundDouble_zero]
    norm_num
  · have hq := doubleSpacing_pos x
    have hle := doubleSpacing_le x hx
    have herr := roundHalfEven_error (x / doubleSpacing x)
    have heq : roundDouble x - x
        = ((roundHalfEven (x / doubleSpacing x) : ℚ) - x / doubleSpacing x) * doubleSpacing x := by
      unfold roundDouble
      field_simp
    rw [heq, abs_mul, abs_of_pos hq]
    have h1 := mul_le_mul_of_nonneg_right herr hq.le
    have h2 : |x| / 2 ^ 53 + 1 / 2 ^ 1075 = (|x| / 2 ^ 52 + 1 / 2 ^ 1074) / 2 := by ring
    rw [h2]
    linarith

theorem updateSocDouble_eq_with (c : GunnsElectBatteryCell) (current timeStep : ℚ) :
    c.updateSocDouble current timeStep
      = { c with mSoc := (c.updateSocDouble current timeStep).mSoc } := by
  obtain ⟨fo, fs, r, cap, soc, n⟩ := c
  unfold GunnsElectBatteryCell.updateSocDouble
  cases fs <;> cases fo <;> by_cases hc : cap > DBL_EPSILON <;> simp [hc]

theorem updateSocDouble_nominal_soc (c : GunnsElectBatteryCell) (current timeStep : ℚ)
    (hs : c.mMalfShortCircuit = false) (ho : c.mMalfOpenCircuit = false)
    (hc : c.mMaxCapacity > DBL_EPSILON) :
    (c.updateSocDouble current timeStep).mSoc =
      limitRange 0 (roundDouble (c.mSoc - roundDouble (roundDouble
        (roundDouble (current * timeStep) / c.mMaxCapacity) / SEC_PER_HR))) 1 := by
  unfold GunnsElectBatteryCell.updateSocDouble
  simp [hs, ho, hc]

theorem roundDouble_neg60 : roundDouble (-1 * 60) = -60 := by
  rw [roundDouble_eq (-1 * 60) 5 (-60 * 2 ^ 47) (by norm_num [abs_of_neg])
    (by norm_num [abs_of_neg]) (by norm_num) (by norm_num) (by norm_num)]
  norm_num

theorem roundDouble_neg6 : roundDouble (-60 / 10) = -6 := by
  rw [roundDouble_eq (-60 / 10) 2 (-6 * 2 ^ 50) (by norm_num [abs_of_neg])
    (by norm_num [abs_of_neg]) (by norm_num) (by norm_num) (by norm_num)]
  norm_num

theorem roundDouble_neg6_div :
    roundDouble (-6 / 3600) = -7686143364045647 / 2 ^ 62 := by
  rw [roundDouble_eq (-6 / 3600) (-10) (-7686143364045647) (by norm_num [abs_of_neg])
    (by norm_num [abs_of_neg]) (by norm_num) (by norm_num) (by norm_num)]
  norm_num

theorem roundDouble_neg120 : roundDouble (-2 * 60) = -120 := by
  rw [roundDouble_eq (-2 * 60) 6 (-120 * 2 ^ 46) (by norm_num [abs_of_neg])
    (by norm_num [abs_of_neg]) (by norm_num) (by norm_num) (by norm_num)]
  norm_num

theorem roundDouble_neg12 : roundDouble (-120 / 10) = -12 := by
  rw [roundDouble_eq (-120 / 10) 3 (-12 * 2 ^ 49) (by norm_num [abs_of_neg])
    (by norm_num [abs_of_neg]) (by norm_num) (by norm_num) (by norm_num)]
  norm_num

theorem roundDouble_neg12_div :
    roundDouble (-12 / 3600) = -7686143364045647 / 2 ^ 61 := by
  rw [roundDouble_eq (-12 / 3600) (-9) (-7686143364045647) (by norm_num [abs_of_neg])
    (by norm_num [abs_of_neg]) (by norm_num) (by norm_num) (by norm_num)]
  norm_num

theorem roundDouble_first_step :
    roundDouble (1 / 2 - -7686143364045647 / 2 ^ 62) = 4518611626128398 / 2 ^ 53 := by
  rw [roundDouble_eq (1 / 2 - -7686143364045647 / 2 ^ 62) (-1) 4518611626128398
    (by norm_num [abs_of_pos]) (by norm_num [abs_of_pos]) (by norm_num) (by norm_num)
    (by norm_num)]
  norm_num

theorem roundDouble_second_step :
    roundDouble (4518611626128398 / 2 ^ 53 - -7686143364045647 / 2 ^ 62)
      = 4533623624886300 / 2 ^ 53 := by
  rw [roundDouble_eq (4518611626128398 / 2 ^ 53 - -7686143364045647 / 2 ^ 62) (-1)
    4533623624886300 (by norm_num [abs_of_pos]) (by norm_num [abs_of_pos]) (by norm_num)
    (by norm_num) (by norm_num)]
  norm_num

theorem roundDouble_merged_step :
    roundDouble (1 / 2 - -7686143364045647 / 2 ^ 61) = 4533623624886299 / 2 ^ 53 := by
  rw [roundDouble_eq (1 / 2 - -7686143364045647 / 2 ^ 61) (-1) 4533623624886299
    (by norm_num [abs_of_pos]) (by norm_num [abs_of_pos]) (by norm_num) (by norm_num)
    (by norm_num)]
  norm_num

theorem sampleCell_capacity_above : sampleCell.mMaxCapacity > DBL_EPSILON := by
  norm_num [sampleCell, DBL_EPSILON]

theorem sampleCell_updateSocDouble_first :
    (sampleCell.updateSocDouble (-1) 60).mSoc = 4518611626128398 / 2 ^ 53 := by
  rw [updateSocDouble_nominal_soc sampleCell (-1) 60 rfl rfl sampleCell_capacity_above]
  have h1 : sampleCell.mMaxCapacity = 10 := rfl
  have h2 : sampleCell.mSoc = 1 / 2 := rfl
  rw [h1, h2, roundDouble_neg60, roundDouble_neg6]
  unfold SEC_PER_HR
  rw [roundDouble_neg6_div, roundDouble_first_step]
  norm_num [limitRange]

theorem sampleCell_updateSocDouble_second :
    ((sampleCell.updateSocDouble (-1) 60).updateSocDouble (-1) 60).mSoc
      = 4533623624886300 / 2 ^ 53 := by
  have hf := updateSocDouble_eq_with sampleCell (-1) 60
  rw [updateSocDouble_nominal_soc _ (-1) 60 (by rw [hf]; rfl) (by rw [hf]; rfl)
    (by rw [hf]; exact sampleCell_capacity_above)]
  have h1 : (sampleCell.updateSocDouble (-1) 60).mMaxCapacity = 10 := by rw [hf]; rfl
  rw [h1, sampleCell_updateSocDouble_first, roundDouble_neg60, roundDouble_neg6]
  unfold SEC_PER_HR
  rw [roundDouble_neg6_div, roundDouble_second_step]
  norm_num [limitRange]

theorem sampleCell_updateSocDouble_merged :
    (sampleCell.updateSocDouble (-2) 60).mSoc = 4533623624886299 / 2 ^ 53 := by
  rw [updateSocDouble_nominal_soc sampleCell (-2) 60 rfl rfl sampleCell_capacity_above]
  have h1 : sampleCell.mMaxCapacity = 10 := rfl
  have h2 : sampleCell.mSoc = 1 / 2 := rfl
  rw [h1, h2, roundDouble_neg120, roundDouble_neg12]
  unfold SEC_PER_HR
  rw [roundDouble_neg12_div, roundDouble_merged_step]
  norm_num [limitRange]

theorem limitRange_lipschitz (x y : ℚ) :
    |limitRange 0 x 1 - limitRange 0 y 1| ≤ |x - y| := by
  have h1 := le_abs_self (x - y)
  have h2 := neg_abs_le (x - y)
  unfold limitRange
  split_ifs <;> rw [abs_le] <;> constructor <;> linarith

theorem abs_le_add_abs_sub (y z : ℚ) : |y| ≤ |z| + |y - z| := by
  have := abs_sub_abs_le_abs_sub y z
  linarith

/-- The rounding error of the charge term `current * timeStep / maxCapacity / SEC_PER_HR`,
computed with three rounded operations. -/
theorem chargeTerm_error (x cap : ℚ) (hc : cap > DBL_EPSILON) :
    |roundDouble (roundDouble (roundDouble x / cap) / SEC_PER_HR) - x / cap / SEC_PER_HR|
      ≤ |x / cap / SEC_PER_HR| / 2 ^ 51 + 1 / 2 ^ 1000 := by
  have hcap : 0 < cap := lt_trans DBL_EPSILON_pos hc
  have hinv : 1 / cap ≤ 2 ^ 52 := by
    have h := one_div_le_one_div_of_le DBL_EPSILON_pos hc.le
    have e : 1 / DBL_EPSILON = 2 ^ 52 := by norm_num [DBL_EPSILON]
    rw [e] at h
    exact h
  unfold SEC_PER_HR
  have hp := roundDouble_error x
  have hd := roundDouble_error (roundDouble x / cap)
  have hb := roundDouble_error (roundDouble (roundDouble x / cap) / 3600)
  -- scale the first two errors down to the size of the final quotient
  have hα : |roundDouble x / cap / 3600 - x / cap / 3600|
      ≤ |x / cap / 3600| / 2 ^ 53 + 1 / 2 ^ 1075 * 2 ^ 52 / 3600 := by
    have e1 : roundDouble x / cap / 3600 - x / cap / 3600
        = (roundDouble x - x) * (1 / cap) / 3600 := by ring
    have e2 : |x / cap / 3600| = |x| * (1 / cap) / 3600 := by
      rw [abs_div, abs_div, abs_of_pos hcap]
      norm_num
      ring
    rw [e1, e2, abs_div, abs_mul, abs_of_pos (one_div_pos.mpr hcap)]
    norm_num
    have h1 : |roundDouble x - x| * (1 / cap) ≤ (|x| / 2 ^ 53 + 1 / 2 ^ 1075) * (1 / cap) :=
      mul_le_mul_of_nonneg_right hp (one_div_pos.mpr hcap).le
    have h2 : (1 : ℚ) / 2 ^ 1075 * (1 / cap) ≤ 1 / 2 ^ 1075 * 2 ^ 52 :=
      mul_le_mul_of_nonneg_left hinv (by positivity)
    have h3 : (|x| / 2 ^ 53 + 1 / 2 ^ 1075) * (1 / cap)
        = |x| * (1 / cap) / 2 ^ 53 + 1 / 2 ^ 1075 * (1 / cap) := by ring
    norm_num at h1 h2 h3 ⊢
    linarith
  have hβ : |roundDouble (roundDouble x / cap) / 3600 - roundDouble x / cap / 3600|
      ≤ |roundDouble x / cap / 3600| / 2 ^ 53 + 1 / 2 ^ 1075 / 3600 := by
    have e1 : roundDouble (roundDouble x / cap) / 3600 - roundDouble x / cap / 3600
        = (roundDouble (roundDouble x / cap) - roundDouble x / cap) / 3600 := by ring
    have e2 : |roundDouble x / cap / 3600| = |roundDouble x / cap| / 3600 := by
      rw [abs_div (roundDouble x / cap) 3600]
      norm_num
    rw [e1, e2, abs_div]
    norm_num at hd ⊢
    linarith
  have t1 := abs_le_add_abs_sub (roundDouble x / cap / 3600) (x / cap / 3600)
  have t2 := abs_le_add_abs_sub (roundDouble (roundDouble x / cap) / 3600)
    (roundDouble x / cap / 3600)
  have t3 : |roundDouble (roundDouble (roundDouble x / cap) / 3600) - x / cap / 3600|
      ≤ |roundDouble (roundDouble (roundDouble x / cap) / 3600)
          - roundDouble (roundDouble x / cap) / 3600|
        + |roundDouble (roundDouble x / cap) / 3600 - roundDouble x / cap / 3600|
        + |roundDouble x / cap / 3600 - x / cap / 3600| := by
    have := abs_sub_le (roundDouble (roundDouble (roundDouble x / cap) / 3600))
      (roundDouble (roundDouble x / cap) / 3600) (x / cap / 3600)
    have := abs_sub_le (roundDouble (roundDouble x / cap) / 3600)
      (roundDouble x / cap / 3600) (x / cap / 3600)
    linarith
  norm_num at hα hβ hb t1 t2 t3 ⊢
  have hA : 0 ≤ |x / cap / 3600| := abs_nonneg _
  linarith

/-- One rounded step against one exact step: clamping does not increase the distance, and the
subtraction adds one rounding error. -/
theorem socStep_error (s s0 b a : ℚ) (hs0 : 0 ≤ s) (hs1 : s ≤ 1) :
    |limitRange 0 (roundDouble (s - b)) 1 - limitRange 0 (s0 - a) 1|
      ≤ (1 + |a| + |b - a|) / 2 ^ 53 + 1 / 2 ^ 1075 + |s - s0| + |b - a| := by
  have h1 := limitRange_lipschitz (roundDouble (s - b)) (s0 - a)
  have h2 := roundDouble_error (s - b)
  have h3 := abs_sub_le (roundDouble (s - b)) (s - b) (s0 - a)
  have h4 : |s - b - (s0 - a)| ≤ |s - s0| + |b - a| := by
    have e : s - b - (s0 - a) = (s - s0) - (b - a) := by ring
    rw [e]
    exact abs_sub _ _
  have h5 : |s - b| ≤ 1 + |a| + |b - a| := by
    have t1 := abs_sub s b
    have t2 := abs_le_add_abs_sub b a
    have t3 : |s| ≤ 1 := abs_le.mpr ⟨by linarith, hs1⟩
    linarith
  norm_num at h2 ⊢
  linarith

/-- Two consecutive rounded steps against one rounded step with the summed charge. -/
theorem updateSocDouble_merge_error (c : GunnsElectBatteryCell)
    (current1 timeStep1 current2 timeStep2 current timeStep : ℚ)
    (hs : c.mMalfShortCircuit = false) (ho : c.mMalfOpenCircuit = false)
    (hc : c.mMaxCapacity > DBL_EPSILON) (h0 : 0 ≤ c.mSoc) (h1 : c.mSoc ≤ 1)
    (hsign : (0 ≤ current1 * timeStep1 ∧ 0 ≤ current2 * timeStep2) ∨
      (current1 * timeStep1 ≤ 0 ∧ current2 * timeStep2 ≤ 0))
    (hsum : current * timeStep = current1 * timeStep1 + current2 * timeStep2) :
    |((c.updateSocDouble current1 timeStep1).updateSocDouble current2 timeStep2).mSoc
        - (c.updateSocDouble current timeStep).mSoc|
      ≤ (1 + |current1 * timeStep1 / c.mMaxCapacity / SEC_PER_HR|
          + |current2 * timeStep2 / c.mMaxCapacity / SEC_PER_HR|) / 2 ^ 49 := by
  have hcap : 0 < c.mMaxCapacity := lt_trans DBL_EPSILON_pos hc
  have hsec : (0 : ℚ) < SEC_PER_HR := by unfold SEC_PER_HR; norm_num
  have hframe := updateSocDouble_eq_with c current1 timeStep1
  have hs1 : (c.updateSocDouble current1 timeStep1).mMalfShortCircuit = false := by
    rw [hframe]; exact hs
  have ho1 : (c.updateSocDouble current1 timeStep1).mMalfOpenCircuit = false := by
    rw [hframe]; exact ho
  have hcap1 : (c.updateSocDouble current1 timeStep1).mMaxCapacity = c.mMaxCapacity := by
    rw [hframe]
  have hc1 : (c.updateSocDouble current1 timeStep1).mMaxCapacity > DBL_EPSILON := by
    rw [hcap1]; exact hc
  rw [updateSocDouble_nominal_soc _ current2 timeStep2 hs1 ho1 hc1, hcap1,
    updateSocDouble_nominal_soc c current1 timeStep1 hs ho hc,
    updateSocDouble_nominal_soc c current timeStep hs ho hc, hsum]
  -- the exact values the three rounded steps are compared with
  have hmerge := limitRange_merge c.mSoc (current1 * timeStep1 / c.mMaxCapacity / SEC_PER_HR)
    (current2 * timeStep2 / c.mMaxCapacity / SEC_PER_HR) h0 h1
    (by
      rcases hsign with ⟨ha, hb⟩ | ⟨ha, hb⟩
      · exact Or.inl ⟨div_nonneg (div_nonneg ha hcap.le) hsec.le,
          div_nonneg (div_nonneg hb hcap.le) hsec.le⟩
      · exact Or.inr ⟨div_nonpos_of_nonpos_of_nonneg
            (div_nonpos_of_nonpos_of_nonneg ha hcap.le) hsec.le,
          div_nonpos_of_nonpos_of_nonneg (div_nonpos_of_nonpos_of_nonneg hb hcap.le) hsec.le⟩)
  have hsplit : (current1 * timeStep1 + current2 * timeStep2) / c.mMaxCapacity / SEC_PER_HR
      = current1 * timeStep1 / c.mMaxCapacity / SEC_PER_HR
        + current2 * timeStep2 / c.mMaxCapacity / SEC_PER_HR := by
    rw [add_div, add_div]
  have e1 := chargeTerm_error (current1 * timeStep1) c.mMaxCapacity hc
  have e2 := chargeTerm_error (current2 * timeStep2) c.mMaxCapacity hc
  have e3 := chargeTerm_error (current1 * timeStep1 + current2 * timeStep2) c.mMaxCapacity hc
  rw [hsplit] at e3
  have d1 := socStep_error c.mSoc c.mSoc
    (roundDouble (roundDouble (roundDouble (current1 * timeStep1) / c.mMaxCapacity)
      / SEC_PER_HR))
    (current1 * timeStep1 / c.mMaxCapacity / SEC_PER_HR) h0 h1
  have d2 := socStep_error
    (limitRange 0 (roundDouble (c.mSoc - roundDouble (roundDouble
      (roundDouble (current1 * timeStep1) / c.mMaxCapacity) / SEC_PER_HR))) 1)
    (limitRange 0 (c.mSoc - current1 * timeStep1 / c.mMaxCapacity / SEC_PER_HR) 1)
    (roundDouble (roundDouble (roundDouble (current2 * timeStep2) / c.mMaxCapacity)
      / SEC_PER_HR))
    (current2 * timeStep2 / c.mMaxCapacity / SEC_PER_HR)
    (limitRange_nonneg _) (limitRange_le_one _)
  have d3 := socStep_error c.mSoc c.mSoc
    (roundDouble (roundDouble (roundDouble (current1 * timeStep1 + current2 * timeStep2)
      / c.mMaxCapacity) / SEC_PER_HR))
    (current1 * timeStep1 / c.mMaxCapacity / SEC_PER_HR
      + current2 * timeStep2 / c.mMaxCapacity / SEC_PER_HR) h0 h1
  rw [hmerge] at d2
  have tri := abs_sub_le
    (limitRange 0 (roundDouble (limitRange 0 (roundDouble (c.mSoc - roundDouble (roundDouble
      (roundDouble (current1 * timeStep1) / c.mMaxCapacity) / SEC_PER_HR))) 1
      - roundDouble (roundDouble (roundDouble (current2 * timeStep2) / c.mMaxCapacity)
        / SEC_PER_HR))) 1)
    (limitRange 0 (c.mSoc - (current1 * timeStep1 / c.mMaxCapacity / SEC_PER_HR
      + current2 * timeStep2 / c.mMaxCapacity / SEC_PER_HR)) 1)
    (limitRange 0 (roundDouble (c.mSoc - roundDouble (roundDouble
      (roundDouble (current1 * timeStep1 + current2 * timeStep2) / c.mMaxCapacity)
        / SEC_PER_HR))) 1)
  have hsymm := abs_sub_comm
    (limitRange 0 (c.mSoc - (current1 * timeStep1 / c.mMaxCapacity / SEC_PER_HR
      + current2 * timeStep2 / c.mMaxCapacity / SEC_PER_HR)) 1)
    (limitRange 0 (roundDouble (c.mSoc - roundDouble (roundDouble
      (roundDouble (current1 * timeStep1 + current2 * timeStep2) / c.mMaxCapacity)
        / SEC_PER_HR))) 1)
  have hadd := abs_add (current1 * timeStep1 / c.mMaxCapacity / SEC_PER_HR)
    (current2 * timeStep2 / c.mMaxCapacity / SEC_PER_HR)
  have n1 := abs_nonneg (current1 * timeStep1 / c.mMaxCapacity / SEC_PER_HR)
  have n2 := abs_nonneg (current2 * timeStep2 / c.mMaxCapacity / SEC_PER_HR)
  have z : |c.mSoc - c.mSoc| = 0 := by simp
  rw [z] at d1 d3
  rw [hsymm] at tri
  norm_num at e1 e2 e3 d1 d2 d3 ⊢
  linarith

/-! ## State of charge integration (`updateSoc`) -/

/-- C1: a cell whose state of charge lies in [0,1] still has it in [0,1] after `updateSoc`, for
every current, time step, capacity and malfunction flags; and so it does after any finite sequence
of `updateSoc` calls between which the malfunction flags may change. -/
theorem C1_updateSoc_keeps_soc_in_unit_interval (c : GunnsElectBatteryCell)
    (current timeStep : ℚ) (steps : List (Bool × Bool × ℚ × ℚ))
    (h0 : 0 ≤ c.mSoc) (h1 : c.mSoc ≤ 1) :
    (0 ≤ (c.updateSoc current timeStep).mSoc ∧ (c.updateSoc current timeStep).mSoc ≤ 1) ∧
      (0 ≤ (runUpdateSoc c steps).mSoc ∧ (runUpdateSoc c steps).mSoc ≤ 1) :=
  ⟨updateSoc_soc_mem c current timeStep h0 h1, runUpdateSoc_soc_mem steps c h0 h1⟩

theorem C1_updateSoc_keeps_soc_in_unit_interval_witness :
    (0 ≤ sampleCell.mSoc ∧ sampleCell.mSoc ≤ 1) ∧
      (0 ≤ (sampleCell.updateSoc (-40000) 3600).mSoc ∧
        (sampleCell.updateSoc (-40000) 3600).mSoc ≤ 1) ∧
      (0 ≤ (runUpdateSoc sampleCell
          [(false, false, 7, 3600), (true, false, 7, 3600), (true, true, -3, 60),
            (false, false, -900, 3600)]).mSoc ∧
        (runUpdateSoc sampleCell
          [(false, false, 7, 3600), (true, false, 7, 3600), (true, true, -3, 60),
            (false, false, -900, 3600)]).mSoc ≤ 1) :=
  ⟨⟨by norm_num [sampleCell], by norm_num [sampleCell]⟩,
    C1_updateSoc_keeps_soc_in_unit_interval sampleCell (-40000) 3600 _
      (by norm_num [sampleCell]) (by norm_num [sampleCell])⟩

/-- C2: when the short-circuit malfunction is set, `updateSoc` sets the state of charge to exactly
0, whatever the current, time step, capacity, prior state of charge and open-circuit flag. -/
theorem C2_updateSoc_short_circuit_zeroes_soc (c : GunnsElectBatteryCell) (current timeStep : ℚ)
    (hs : c.mMalfShortCircuit = true) : (c.updateSoc current timeStep).mSoc = 0 := by
  rw [updateSoc_soc_eq, if_pos hs]

theorem C2_updateSoc_short_circuit_zeroes_soc_witness :
    ((shortedCell true).mMalfShortCircuit = true ∧
        ((shortedCell true).updateSoc (-25) 120).mSoc = 0) ∧
      ((shortedCell false).mMalfShortCircuit = true ∧
        ((shortedCell false).updateSoc 25 120).mSoc = 0) :=
  ⟨⟨rfl, C2_updateSoc_short_circuit_zeroes_soc (shortedCell true) (-25) 120 rfl⟩,
    ⟨rfl, C2_updateSoc_short_circuit_zeroes_soc (shortedCell false) 25 120 rfl⟩⟩

/-- C3: when the open-circuit malfunction is set and the short-circuit one is not, `updateSoc`
leaves the state of charge exactly as it was, for every current, time step and capacity. -/
theorem C3_updateSoc_open_circuit_keeps_soc (c : GunnsElectBatteryCell) (current timeStep : ℚ)
    (ho : c.mMalfOpenCircuit = true) (hs : c.mMalfShortCircuit = false) :
    (c.updateSoc current timeStep).mSoc = c.mSoc := by
  rw [updateSoc_soc_eq]
  simp [ho, hs]

theorem C3_updateSoc_open_circuit_keeps_soc_witness :
    openCell.mMalfOpenCircuit = true ∧ openCell.mMalfShortCircuit = false ∧
      (openCell.updateSoc 25 120).mSoc = openCell.mSoc :=
  ⟨rfl, rfl, C3_updateSoc_open_circuit_keeps_soc openCell 25 120 rfl rfl⟩

/-- C4: for a cell with neither malfunction and a maximum capacity above `DBL_EPSILON`,
`updateSoc(current, timeStep)` sets the state of charge to the old one minus
`current * timeStep / (maxCapacity * 3600)`, limited to the closed interval [0,1]. -/
theorem C4_updateSoc_nominal_integration (c : GunnsElectBatteryCell) (current timeStep : ℚ)
    (hs : c.mMalfShortCircuit = false) (ho : c.mMalfOpenCircuit = false)
    (hc : c.mMaxCapacity > DBL_EPSILON) :
    (c.updateSoc current timeStep).mSoc =
      max 0 (min 1 (c.mSoc - current * timeStep / (c.mMaxCapacity * 3600))) := by
  rw [updateSoc_soc_eq]
  simp only [hs, ho, hc, if_true, Bool.false_eq_true, if_false]
  rw [limitRange_eq_max_min, div_div]
  rfl

theorem C4_updateSoc_nominal_integration_witness :
    (sampleCell.mMalfShortCircuit = false ∧ sampleCell.mMalfOpenCircuit = false ∧
        sampleCell.mMaxCapacity > DBL_EPSILON) ∧
      (sampleCell.updateSoc 5 720).mSoc =
        max 0 (min 1 (sampleCell.mSoc - 5 * 720 / (sampleCell.mMaxCapacity * 3600))) :=
  ⟨⟨rfl, rfl, by norm_num [sampleCell, DBL_EPSILON]⟩,
    C4_updateSoc_nominal_integration sampleCell 5 720 rfl rfl
      (by norm_num [sampleCell, DBL_EPSILON])⟩

/-! ## Effective values under malfunctions -/

/-- C5: `getEffectiveVoltage(table)` returns exactly 0 when the open-circuit or the short-circuit
malfunction (or both) is set, for every state of charge and table, and returns the table's value
at the state of charge when neither is set. -/
theorem C5_getEffectiveVoltage_cases (c : GunnsElectBatteryCell) (socVocTable : ℚ → ℚ) :
    ((c.mMalfOpenCircuit = true ∨ c.mMalfShortCircuit = true) →
        c.getEffectiveVoltage socVocTable = 0) ∧
      ((c.mMalfOpenCircuit = false ∧ c.mMalfShortCircuit = false) →
        c.getEffectiveVoltage socVocTable = socVocTable c.mSoc) := by
  unfold GunnsElectBatteryCell.getEffectiveVoltage
  constructor
  · rintro (h | h) <;> simp [h]
  · rintro ⟨ho, hs⟩; simp [ho, hs]

theorem C5_getEffectiveVoltage_cases_witness :
    (openCell.mMalfOpenCircuit = true ∧ openCell.getEffectiveVoltage linearVocTable = 0) ∧
      ((shortedCell false).mMalfShortCircuit = true ∧
        (shortedCell false).getEffectiveVoltage linearVocTable = 0) ∧
      ((shortedCell true).mMalfShortCircuit = true ∧
        (shortedCell true).getEffectiveVoltage linearVocTable = 0) ∧
      ((sampleCell.mMalfOpenCircuit = false ∧ sampleCell.mMalfShortCircuit = false) ∧
        sampleCell.getEffectiveVoltage linearVocTable = linearVocTable sampleCell.mSoc) :=
  ⟨⟨rfl, (C5_getEffectiveVoltage_cases openCell linearVocTable).1 (Or.inl rfl)⟩,
    ⟨rfl, (C5_getEffectiveVoltage_cases (shortedCell false) linearVocTable).1 (Or.inr rfl)⟩,
    ⟨rfl, (C5_getEffectiveVoltage_cases (shortedCell true) linearVocTable).1 (Or.inr rfl)⟩,
    ⟨⟨rfl, rfl⟩, (C5_getEffectiveVoltage_cases sampleCell linearVocTable).2 ⟨rfl, rfl⟩⟩⟩

/-- C6: `getEffectiveResistance` returns `DBL_EPSILON` (that is `2^-52`, near zero) when the
short-circuit malfunction is set, also when the open-circuit one is set too; returns
`1 / DBL_EPSILON` (that is `2^52`, very large) when only the open-circuit malfunction is set; and
returns the nominal resistance when neither is set. -/
theorem C6_getEffectiveResistance_cases (c : GunnsElectBatteryCell) :
    (c.mMalfShortCircuit = true →
        c.getEffectiveResistance = DBL_EPSILON ∧ c.getEffectiveResistance = 1 / 2 ^ 52) ∧
      ((c.mMalfShortCircuit = false ∧ c.mMalfOpenCircuit = true) →
        c.getEffectiveResistance = 1 / DBL_EPSILON ∧ c.getEffectiveResistance = 2 ^ 52) ∧
      ((c.mMalfShortCircuit = false ∧ c.mMalfOpenCircuit = false) →
        c.getEffectiveResistance = c.mResistance) := by
  unfold GunnsElectBatteryCell.getEffectiveResistance
  refine ⟨?_, ?_, ?_⟩
  · intro hs; simp [hs, DBL_EPSILON]
  · rintro ⟨hs, ho⟩; simp [hs, ho, DBL_EPSILON]
  · rintro ⟨hs, ho⟩; simp [hs, ho]

theorem C6_getEffectiveResistance_cases_witness :
    ((shortedCell true).mMalfShortCircuit = true ∧
        (shortedCell true).getEffectiveResistance = DBL_EPSILON ∧
        (shortedCell true).getEffectiveResistance = 1 / 2 ^ 52) ∧
      ((openCell.mMalfShortCircuit = false ∧ openCell.mMalfOpenCircuit = true) ∧
        openCell.getEffectiveResistance = 1 / DBL_EPSILON ∧
        openCell.getEffectiveResistance = 2 ^ 52) ∧
      ((sampleCell.mMalfShortCircuit = false ∧ sampleCell.mMalfOpenCircuit = false) ∧
        sampleCell.getEffectiveResistance = sampleCell.mResistance) :=
  ⟨⟨rfl, (C6_getEffectiveResistance_cases (shortedCell true)).1 rfl⟩,
    ⟨⟨rfl, rfl⟩, (C6_getEffectiveResistance_cases openCell).2.1 ⟨rfl, rfl⟩⟩,
    ⟨⟨rfl, rfl⟩, (C6_getEffectiveResistance_cases sampleCell).2.2 ⟨rfl, rfl⟩⟩⟩

/-- C7: `getEffectiveSoc` returns 0 if either malfunction is set and the stored state of charge
otherwise; being a `const` member function, a call of it leaves the cell as it was. -/
theorem C7_getEffectiveSoc_cases (c : GunnsElectBatteryCell) :
    ((c.mMalfOpenCircuit = true ∨ c.mMalfShortCircuit = true) → c.getEffectiveSoc = 0) ∧
      ((c.mMalfOpenCircuit = false ∧ c.mMalfShortCircuit = false) →
        c.getEffectiveSoc = c.mSoc) ∧
      (constCall GunnsElectBatteryCell.getEffectiveSoc c).2 = c := by
  unfold GunnsElectBatteryCell.getEffectiveSoc
  refine ⟨?_, ?_, rfl⟩
  · rintro (h | h) <;> simp [h]
  · rintro ⟨ho, hs⟩; simp [ho, hs]

theorem C7_getEffectiveSoc_cases_witness :
    (openCell.mMalfOpenCircuit = true ∧ openCell.getEffectiveSoc = 0) ∧
      ((shortedCell false).mMalfShortCircuit = true ∧ (shortedCell false).getEffectiveSoc = 0) ∧
      ((sampleCell.mMalfOpenCircuit = false ∧ sampleCell.mMalfShortCircuit = false) ∧
        sampleCell.getEffectiveSoc = sampleCell.mSoc) :=
  ⟨⟨rfl, (C7_getEffectiveSoc_cases openCell).1 (Or.inl rfl)⟩,
    ⟨rfl, (C7_getEffectiveSoc_cases (shortedCell false)).1 (Or.inr rfl)⟩,
    ⟨⟨rfl, rfl⟩, (C7_getEffectiveSoc_cases sampleCell).2.1 ⟨rfl, rfl⟩⟩⟩

/-- C9: for a cell with neither malfunction whose maximum capacity is not above `DBL_EPSILON`,
`updateSoc` evaluates no division and sets the state of charge to exactly 0, for every current,
time step and prior state of charge. -/
theorem C9_updateSoc_zero_capacity_guard (c : GunnsElectBatteryCell) (current timeStep : ℚ)
    (hs : c.mMalfShortCircuit = false) (ho : c.mMalfOpenCircuit = false)
    (hc : c.mMaxCapacity ≤ DBL_EPSILON) :
    c.updateSocDivisors current timeStep = [] ∧ (c.updateSoc current timeStep).mSoc = 0 := by
  have hc' : ¬ c.mMaxCapacity > DBL_EPSILON := not_lt.mpr hc
  constructor
  · unfold GunnsElectBatteryCell.updateSocDivisors GunnsElectBatteryCell.updateSocTraced
    simp [hs, ho, hc']
  · rw [updateSoc_soc_eq]
    simp only [hs, ho, hc', Bool.false_eq_true, if_false]
    exact limitRange_of_mem (le_refl 0) zero_le_one

theorem C9_updateSoc_zero_capacity_guard_witness :
    (tinyCell.mMalfShortCircuit = false ∧ tinyCell.mMalfOpenCircuit = false ∧
        tinyCell.mMaxCapacity ≤ DBL_EPSILON) ∧
      tinyCell.updateSocDivisors (-8) 30 = [] ∧ (tinyCell.updateSoc (-8) 30).mSoc = 0 :=
  ⟨⟨rfl, rfl, le_refl _⟩, C9_updateSoc_zero_capacity_guard tinyCell (-8) 30 rfl rfl (le_refl _)⟩

/-- C10: for a cell with no malfunction, maximum capacity above `DBL_EPSILON`, state of charge in
[0,1] and a time step of at least 0, `updateSoc` with a current of at least 0 does not raise the
state of charge (discharge) and with a current of at most 0 does not lower it (charge). -/
theorem C10_updateSoc_sign_convention (c : GunnsElectBatteryCell) (current timeStep : ℚ)
    (hs : c.mMalfShortCircuit = false) (ho : c.mMalfOpenCircuit = false)
    (hc : c.mMaxCapacity > DBL_EPSILON) (h0 : 0 ≤ c.mSoc) (h1 : c.mSoc ≤ 1)
    (ht : 0 ≤ timeStep) :
    (0 ≤ current → (c.updateSoc current timeStep).mSoc ≤ c.mSoc) ∧
      (current ≤ 0 → c.mSoc ≤ (c.updateSoc current timeStep).mSoc) := by
  have hcap : 0 < c.mMaxCapacity := lt_trans DBL_EPSILON_pos hc
  have hsec : (0 : ℚ) < SEC_PER_HR := by unfold SEC_PER_HR; norm_num
  rw [updateSoc_soc_eq]
  simp only [hs, ho, hc, if_true, Bool.false_eq_true, if_false]
  rw [limitRange_eq_max_min]
  constructor
  · intro hi
    have hq : 0 ≤ current * timeStep / c.mMaxCapacity / SEC_PER_HR :=
      div_nonneg (div_nonneg (mul_nonneg hi ht) hcap.le) hsec.le
    exact max_le h0 (le_trans (min_le_right _ _) (by linarith))
  · intro hi
    have hq : current * timeStep / c.mMaxCapacity / SEC_PER_HR ≤ 0 :=
      div_nonpos_of_nonpos_of_nonneg
        (div_nonpos_of_nonpos_of_nonneg (mul_nonpos_of_nonpos_of_nonneg hi ht) hcap.le) hsec.le
    exact le_trans (le_min h1 (by linarith)) (le_max_right _ _)

theorem C10_updateSoc_sign_convention_witness :
    (sampleCell.mMalfShortCircuit = false ∧ sampleCell.mMalfOpenCircuit = false ∧
        sampleCell.mMaxCapacity > DBL_EPSILON ∧ 0 ≤ sampleCell.mSoc ∧ sampleCell.mSoc ≤ 1 ∧
        (0 : ℚ) ≤ 60) ∧
      ((0 : ℚ) ≤ 12 ∧ (sampleCell.updateSoc 12 60).mSoc ≤ sampleCell.mSoc) ∧
      ((-12 : ℚ) ≤ 0 ∧ sampleCell.mSoc ≤ (sampleCell.updateSoc (-12) 60).mSoc) :=
  ⟨⟨rfl, rfl, by norm_num [sampleCell, DBL_EPSILON], by norm_num [sampleCell],
      by norm_num [sampleCell], by norm_num⟩,
    ⟨by norm_num,
      (C10_updateSoc_sign_convention sampleCell 12 60 rfl rfl
        (by norm_num [sampleCell, DBL_EPSILON]) (by norm_num [sampleCell])
        (by norm_num [sampleCell]) (by norm_num)).1 (by norm_num)⟩,
    ⟨by norm_num,
      (C10_updateSoc_sign_convention sampleCell (-12) 60 rfl rfl
        (by norm_num [sampleCell, DBL_EPSILON]) (by norm_num [sampleCell])
        (by norm_num [sampleCell]) (by norm_num)).2 (by norm_num)⟩⟩

/-! ## Initialization -/

/-- C8: `initialize` throws the initialization exception if and only if the name is empty, or the
resistance is below 0, or the maximum capacity is below `DBL_EPSILON`, or the initial state of
charge is outside the closed interval [0,1]; for every other input, whatever the malfunction
flags, it returns normally. -/
theorem C8_initialize_fails_iff (c : GunnsElectBatteryCell)
    (configData : GunnsElectBatteryCellConfigData) (inputData : GunnsElectBatteryCellInputData)
    (name : String) :
    ((∃ e, ( GunnsElectBatteryCell.initialize c configData inputData name).2 = .error e) ↔
        (name = "" ∨ configData.mResistance < 0 ∨ configData.mMaxCapacity < DBL_EPSILON ∨
          ¬ (0 ≤ inputData.mSoc ∧ inputData.mSoc ≤ 1))) ∧
      (( GunnsElectBatteryCell.initialize c configData inputData name).2 = .ok () ↔
        ¬ (name = "" ∨ configData.mResistance < 0 ∨ configData.mMaxCapacity < DBL_EPSILON ∨
          ¬ (0 ≤ inputData.mSoc ∧ inputData.mSoc ≤ 1))) := by
  have hok : ( GunnsElectBatteryCell.initialize c configData inputData name).2 = .ok () ↔
      ¬ (name = "" ∨ configData.mResistance < 0 ∨ configData.mMaxCapacity < DBL_EPSILON ∨
          ¬ (0 ≤ inputData.mSoc ∧ inputData.mSoc ≤ 1)) := by
    unfold GunnsElectBatteryCell.initialize
    rw [validate_ok_iff]
    simp only [not_or, not_lt, not_not, ne_eq]
  refine ⟨?_, hok⟩
  unfold GunnsElectBatteryCell.initialize at hok ⊢
  rw [validate_error_iff, hok, not_not]

/-- C11, as stated, fails: a capacity of exactly `DBL_EPSILON` is accepted by `initialize`, and it
is not strictly greater than `DBL_EPSILON`. -/
theorem C11_accepted_capacity_not_above_epsilon :
    ( GunnsElectBatteryCell.initialize GunnsElectBatteryCell.default epsilonCapacityConfig
        nominalCellInput "cell0").2 = .ok () ∧
      ¬ (( GunnsElectBatteryCell.initialize GunnsElectBatteryCell.default epsilonCapacityConfig
        nominalCellInput "cell0").1.mMaxCapacity > DBL_EPSILON) := by
  constructor
  · unfold GunnsElectBatteryCell.initialize
    rw [validate_ok_iff]
    refine ⟨by decide, ?_, le_refl _, ?_, ?_⟩ <;>
      norm_num [epsilonCapacityConfig, nominalCellInput]
  · unfold GunnsElectBatteryCell.initialize
    exact lt_irrefl _

/-- C11, amended: every cell that `initialize` accepts has a resistance of at least 0 and a
maximum capacity of at least `DBL_EPSILON` (so above 0), where `DBL_EPSILON` is the threshold that
`updateSoc` compares the capacity with. -/
theorem C11_accepted_cell_bounds (c : GunnsElectBatteryCell)
    (configData : GunnsElectBatteryCellConfigData) (inputData : GunnsElectBatteryCellInputData)
    (name : String)
    (hok : ( GunnsElectBatteryCell.initialize c configData inputData name).2 = .ok ()) :
    0 ≤ ( GunnsElectBatteryCell.initialize c configData inputData name).1.mResistance ∧
      DBL_EPSILON ≤
        ( GunnsElectBatteryCell.initialize c configData inputData name).1.mMaxCapacity ∧
      0 < ( GunnsElectBatteryCell.initialize c configData inputData name).1.mMaxCapacity := by
  unfold GunnsElectBatteryCell.initialize at hok ⊢
  rw [validate_ok_iff] at hok
  exact ⟨hok.2.1, hok.2.2.1, lt_of_lt_of_le DBL_EPSILON_pos hok.2.2.1⟩

theorem C11_accepted_cell_bounds_witness :
    ( GunnsElectBatteryCell.initialize GunnsElectBatteryCell.default nominalCellConfig
        nominalCellInput "cell1").2 = .ok () ∧
      (0 ≤ ( GunnsElectBatteryCell.initialize GunnsElectBatteryCell.default nominalCellConfig
        nominalCellInput "cell1").1.mResistance ∧
      DBL_EPSILON ≤ ( GunnsElectBatteryCell.initialize GunnsElectBatteryCell.default
        nominalCellConfig nominalCellInput "cell1").1.mMaxCapacity ∧
      0 < ( GunnsElectBatteryCell.initialize GunnsElectBatteryCell.default nominalCellConfig
        nominalCellInput "cell1").1.mMaxCapacity) :=
  have hok : ( GunnsElectBatteryCell.initialize GunnsElectBatteryCell.default nominalCellConfig
        nominalCellInput "cell1").2 = .ok () := by
    unfold GunnsElectBatteryCell.initialize
    rw [validate_ok_iff]
    refine ⟨by decide, ?_, ?_, ?_, ?_⟩ <;>
      norm_num [nominalCellConfig, nominalCellInput, DBL_EPSILON]
  ⟨hok, C11_accepted_cell_bounds _ _ _ _ hok⟩

/-! ## Aggregation over the cells of a pack -/

/-- C12: the series resistance of a pack is the sum over all its cells of
`getEffectiveResistance()` plus the interconnect resistance, added once whatever the number of
cells.  Four unfaulted 0.01 ohm cells with 0.02 ohm interconnect give 0.06 ohm; with one of them
short-circuited the total is 0.05 ohm plus that cell's effective resistance `DBL_EPSILON`. -/
theorem C12_series_resistance_is_sum (p : GunnsElectBattery) :
    p.computeSeriesResistance =
        (p.mCells.map GunnsElectBatteryCell.getEffectiveResistance).sum
          + p.mInterconnectResistance ∧
      seriesPack4.computeSeriesResistance = 6 / 100 ∧
      seriesPack4Shorted.computeSeriesResistance = 5 / 100 + DBL_EPSILON := by
  refine ⟨?_, ?_, ?_⟩
  · unfold GunnsElectBattery.computeSeriesResistance
    rw [accumulateCells_eq_sum]
  · unfold GunnsElectBattery.computeSeriesResistance
    rw [accumulateCells_eq_sum]
    norm_num [seriesPack4, packOf, sampleCell, GunnsElectBatteryCell.getEffectiveResistance]
  · unfold GunnsElectBattery.computeSeriesResistance
    rw [accumulateCells_eq_sum]
    norm_num [seriesPack4Shorted, packOf, sampleCell, shortedCell,
      GunnsElectBatteryCell.getEffectiveResistance]
    ring

/-- C13: the parallel resistance of a pack is 1 over the sum over all its cells of
`1 / getEffectiveResistance()`, plus the interconnect resistance added once.  Three unfaulted
0.05 ohm cells with 0.01 ohm interconnect give 0.05/3 + 0.01 ohm. -/
theorem C13_parallel_resistance_is_reciprocal_sum (p : GunnsElectBattery) :
    p.computeParallelResistance =
        1 / (p.mCells.map (fun c => 1 / c.getEffectiveResistance)).sum
          + p.mInterconnectResistance ∧
      parallelPack3.computeParallelResistance = 5 / 100 / 3 + 1 / 100 := by
  refine ⟨?_, ?_⟩
  · unfold GunnsElectBattery.computeParallelResistance GunnsElectBattery.parallelConductanceSum
    rw [accumulateCells_eq_sum]
  · unfold GunnsElectBattery.computeParallelResistance GunnsElectBattery.parallelConductanceSum
    rw [accumulateCells_eq_sum]
    norm_num [parallelPack3, packOf, cell50mOhm, sampleCell,
      GunnsElectBatteryCell.getEffectiveResistance]

/-- C14: the series open-circuit voltage of a pack is the sum over all its cells of
`getEffectiveVoltage(table)`, a faulted cell contributing 0 V.  With the linear table (3.0 V at
soc 0, 4.2 V at soc 1), four cells at soc 0.5 give 14.4 V, and 10.8 V when the cell at index 2 is
short-circuited. -/
theorem C14_series_voc_is_sum (p : GunnsElectBattery) :
    p.computeSeriesVoc = (p.mCells.map (fun c => c.getEffectiveVoltage p.mSocVocTable)).sum ∧
      seriesPack4.computeSeriesVoc = 144 / 10 ∧
      seriesPack4Shorted.computeSeriesVoc = 108 / 10 ∧
      (shortedCell false).getEffectiveVoltage linearVocTable = 0 := by
  refine ⟨?_, ?_, ?_, ?_⟩
  · unfold GunnsElectBattery.computeSeriesVoc
    rw [accumulateCells_eq_sum]
  · unfold GunnsElectBattery.computeSeriesVoc
    rw [accumulateCells_eq_sum]
    norm_num [seriesPack4, packOf, sampleCell, linearVocTable,
      GunnsElectBatteryCell.getEffectiveVoltage]
  · unfold GunnsElectBattery.computeSeriesVoc
    rw [accumulateCells_eq_sum]
    norm_num [seriesPack4Shorted, packOf, sampleCell, shortedCell, linearVocTable,
      GunnsElectBatteryCell.getEffectiveVoltage]
  · simp [shortedCell, GunnsElectBatteryCell.getEffectiveVoltage]

/-- C15: for a pack with `numCells > 0` cells, the parallel open-circuit voltage is the maximum
over all cells of `getEffectiveVoltage(table)`: it is the effective voltage of some cell and is at
least every cell's effective voltage. -/
theorem C15_parallel_voc_is_max (p : GunnsElectBattery)
    (hlen : (p.mCells.length : Int) = p.mNumCells) (hn : 0 < p.mNumCells) :
    (∃ c ∈ p.mCells, p.computeParallelVoc = c.getEffectiveVoltage p.mSocVocTable) ∧
      (∀ c ∈ p.mCells, c.getEffectiveVoltage p.mSocVocTable ≤ p.computeParallelVoc) := by
  unfold GunnsElectBattery.computeParallelVoc
  cases hcells : p.mCells with
  | nil =>
    rw [hcells] at hlen
    simp at hlen
    omega
  | cons d ds =>
    constructor
    · rcases maxVoltageFrom_attained p.mSocVocTable ds (d.getEffectiveVoltage p.mSocVocTable)
        with h | ⟨c, hc, h⟩
      · exact ⟨d, List.mem_cons_self _ _, h⟩
      · exact ⟨c, List.mem_cons_of_mem _ hc, h⟩
    · intro c hc
      rcases List.mem_cons.mp hc with h | h
      · subst h
        exact le_maxVoltageFrom _ _ _
      · exact mem_le_maxVoltageFrom _ _ _ c h

theorem C15_parallel_voc_is_max_witness :
    ((parallelPack3.mCells.length : Int) = parallelPack3.mNumCells ∧
        0 < parallelPack3.mNumCells) ∧
      ((∃ c ∈ parallelPack3.mCells,
          parallelPack3.computeParallelVoc = c.getEffectiveVoltage parallelPack3.mSocVocTable) ∧
        (∀ c ∈ parallelPack3.mCells,
          c.getEffectiveVoltage parallelPack3.mSocVocTable ≤ parallelPack3.computeParallelVoc)) ∧
      parallelPack3.computeParallelVoc = 36 / 10 :=
  ⟨⟨rfl, by decide⟩, C15_parallel_voc_is_max parallelPack3 rfl (by decide),
    by norm_num [GunnsElectBattery.computeParallelVoc, maxVoltageFrom, parallelPack3, packOf,
      cell50mOhm, sampleCell, linearVocTable, GunnsElectBatteryCell.getEffectiveVoltage]⟩

/-! ## The per-step cycle of the pack -/

/-- C16: `updateState` publishes the total open-circuit voltage as source potential and the
reciprocal of the total resistance as conductance, both totals by the rule of the active
topology; the divisor of the reciprocal is never 0, and the conductance is 0 when the total
resistance is effectively infinite.  This holds for every near-infinite threshold and every
near-zero threshold above 0. -/
theorem C16_updateState_publishes (nearZero nearInfinite : ℚ) (p : GunnsElectBattery)
    (timeStep : ℚ) (hz : 0 < nearZero) :
    (p.totalResistance =
        if p.mCellsInParallel then p.computeParallelResistance
        else p.computeSeriesResistance) ∧
      ((p.updateState nearZero nearInfinite timeStep).mSourcePotential =
        if p.mCellsInParallel then p.computeParallelVoc else p.computeSeriesVoc) ∧
      (nearZero ≤ p.totalResistance → p.totalResistance < nearInfinite →
        (p.updateState nearZero nearInfinite timeStep).mConductance = 1 / p.totalResistance) ∧
      (nearInfinite ≤ p.totalResistance →
        (p.updateState nearZero nearInfinite timeStep).mConductance = 0) ∧
      (∀ d ∈ (p.updateStateTraced nearZero nearInfinite timeStep).2, d ≠ 0) := by
  unfold GunnsElectBattery.updateState GunnsElectBattery.updateStateTraced guardedConductance
  refine ⟨rfl, rfl, ?_, ?_, ?_⟩
  · intro hlo hhi
    simp only [if_neg (not_le.mpr hhi), max_eq_left hlo]
  · intro hinf
    simp only [if_pos hinf]
  · intro d hd
    by_cases hinf : nearInfinite ≤ p.totalResistance
    · simp [hinf] at hd
    · simp only [if_neg hinf, List.mem_singleton] at hd
      rw [hd]
      exact ne_of_gt (lt_of_lt_of_le hz (le_max_right _ _))

theorem C16_updateState_publishes_witness :
    (0 : ℚ) < DBL_EPSILON ∧
      (DBL_EPSILON ≤ seriesPack4.totalResistance ∧
        seriesPack4.totalResistance < 1 / DBL_EPSILON ∧
        (seriesPack4.updateState DBL_EPSILON (1 / DBL_EPSILON) 1).mConductance
          = 1 / seriesPack4.totalResistance) ∧
      (1 / DBL_EPSILON ≤ seriesPackOpen.totalResistance ∧
        (seriesPackOpen.updateState DBL_EPSILON (1 / DBL_EPSILON) 1).mConductance = 0) ∧
      (∀ d ∈ (seriesPack4.updateStateTraced DBL_EPSILON (1 / DBL_EPSILON) 1).2, d ≠ 0) :=
  have hr : seriesPack4.totalResistance = 6 / 100 := by
    unfold GunnsElectBattery.totalResistance GunnsElectBattery.computeSeriesResistance
    rw [accumulateCells_eq_sum]
    norm_num [seriesPack4, packOf, sampleCell, GunnsElectBatteryCell.getEffectiveResistance]
  have hlo : DBL_EPSILON ≤ seriesPack4.totalResistance := by
    rw [hr]; norm_num [DBL_EPSILON]
  have hhi : seriesPack4.totalResistance < 1 / DBL_EPSILON := by
    rw [hr]; norm_num [DBL_EPSILON]
  have hinf : 1 / DBL_EPSILON ≤ seriesPackOpen.totalResistance := by
    unfold GunnsElectBattery.totalResistance GunnsElectBattery.computeSeriesResistance
    rw [accumulateCells_eq_sum]
    norm_num [seriesPackOpen, packOf, sampleCell, openCell, DBL_EPSILON,
      GunnsElectBatteryCell.getEffectiveResistance]
  ⟨DBL_EPSILON_pos,
    ⟨hlo, hhi,
      (C16_updateState_publishes DBL_EPSILON (1 / DBL_EPSILON) seriesPack4 1
        DBL_EPSILON_pos).2.2.1 hlo hhi⟩,
    ⟨hinf,
      (C16_updateState_publishes DBL_EPSILON (1 / DBL_EPSILON) seriesPackOpen 1
        DBL_EPSILON_pos).2.2.2.1 hinf⟩,
    (C16_updateState_publishes DBL_EPSILON (1 / DBL_EPSILON) seriesPack4 1
      DBL_EPSILON_pos).2.2.2.2⟩

/-- C17: after `updateOutputs`, `getSoc` is the arithmetic mean of `getEffectiveSoc()` over the
cells that are not open-circuited, and 0 when every cell is open-circuited; so it lies in [0,1]
when the soc of every cell does. -/
theorem C17_updateOutputs_soc_is_mean (p : GunnsElectBattery) (portPotential : ℚ) :
    ((∃ c ∈ p.mCells, c.mMalfOpenCircuit = false) →
        (p.updateOutputs portPotential).getSoc =
          ((p.mCells.filter (fun c => !c.mMalfOpenCircuit)).map
              GunnsElectBatteryCell.getEffectiveSoc).sum
            / ((p.mCells.filter (fun c => !c.mMalfOpenCircuit)).length : ℚ)) ∧
      ((∀ c ∈ p.mCells, c.mMalfOpenCircuit = true) →
        (p.updateOutputs portPotential).getSoc = 0) ∧
      ((∀ c ∈ p.mCells, 0 ≤ c.mSoc ∧ c.mSoc ≤ 1) →
        0 ≤ (p.updateOutputs portPotential).getSoc ∧
          (p.updateOutputs portPotential).getSoc ≤ 1) := by
  unfold GunnsElectBattery.getSoc GunnsElectBattery.updateOutputs
  refine ⟨?_, ?_, ?_⟩
  · rintro ⟨c, hc, ho⟩
    have hne : p.activeCells ≠ [] := by
      intro h
      have := (activeCells_eq_nil_iff p).mp h c hc
      rw [ho] at this
      cases this
    rw [if_neg (by simpa [List.isEmpty_iff] using hne), accumulateCells_eq_sum]
    rfl
  · intro hall
    rw [if_pos (by simpa [List.isEmpty_iff] using (activeCells_eq_nil_iff p).mpr hall)]
  · intro hsoc
    by_cases he : p.activeCells = []
    · rw [if_pos (by simpa [List.isEmpty_iff] using he)]
      exact ⟨le_refl _, zero_le_one⟩
    · rw [if_neg (by simpa [List.isEmpty_iff] using he), accumulateCells_eq_sum]
      have hb := sum_map_bounds GunnsElectBatteryCell.getEffectiveSoc p.activeCells
        (fun c hc => getEffectiveSoc_mem c
          (hsoc c (List.mem_of_mem_filter hc)).1 (hsoc c (List.mem_of_mem_filter hc)).2)
      have hpos : (0 : ℚ) < (p.activeCells.length : ℚ) := by
        exact_mod_cast List.length_pos.mpr he
      exact ⟨div_nonneg hb.1 hpos.le, (div_le_one hpos).mpr hb.2⟩

theorem C17_updateOutputs_soc_is_mean_witness :
    ((∃ c ∈ mixedPack.mCells, c.mMalfOpenCircuit = false) ∧
        (mixedPack.updateOutputs 13).getSoc =
          ((mixedPack.mCells.filter (fun c => !c.mMalfOpenCircuit)).map
              GunnsElectBatteryCell.getEffectiveSoc).sum
            / ((mixedPack.mCells.filter (fun c => !c.mMalfOpenCircuit)).length : ℚ)) ∧
      ((∀ c ∈ allOpenPack.mCells, c.mMalfOpenCircuit = true) ∧
        (allOpenPack.updateOutputs 13).getSoc = 0) ∧
      ((∀ c ∈ mixedPack.mCells, 0 ≤ c.mSoc ∧ c.mSoc ≤ 1) ∧
        0 ≤ (mixedPack.updateOutputs 13).getSoc ∧ (mixedPack.updateOutputs 13).getSoc ≤ 1) :=
  have h1 : ∃ c ∈ mixedPack.mCells, c.mMalfOpenCircuit = false :=
    ⟨sampleCell, by simp [mixedPack, packOf], rfl⟩
  have h2 : ∀ c ∈ allOpenPack.mCells, c.mMalfOpenCircuit = true := by
    intro c hc
    simp only [allOpenPack, packOf, List.mem_cons, List.mem_singleton, List.not_mem_nil,
      or_false, or_self] at hc
    rw [hc]; rfl
  have h3 : ∀ c ∈ mixedPack.mCells, 0 ≤ c.mSoc ∧ c.mSoc ≤ 1 := by
    intro c hc
    simp only [mixedPack, packOf, List.mem_cons, List.mem_singleton, List.not_mem_nil,
      or_false] at hc
    rcases hc with h | h | h | h <;> rw [h] <;> norm_num [sampleCell, openCell, shortedCell]
  ⟨⟨h1, (C17_updateOutputs_soc_is_mean mixedPack 13).1 h1⟩,
    ⟨h2, (C17_updateOutputs_soc_is_mean allOpenPack 13).2.1 h2⟩,
    ⟨h3, (C17_updateOutputs_soc_is_mean mixedPack 13).2.2 h3⟩⟩

/-! ## A fully open pack

What the model determines about a pack whose cells are all open-circuited.  Whether its
conductance is 0 depends on the near-infinite threshold, which the specification leaves open. -/

/-- When every cell is open-circuited, `updateOutputs` reports a soc of 0 and a voltage of 0. -/
theorem updateOutputs_all_open (p : GunnsElectBattery) (portPotential : ℚ)
    (hall : ∀ c ∈ p.mCells, c.mMalfOpenCircuit = true) :
    (p.updateOutputs portPotential).getSoc = 0 ∧
      (p.updateOutputs portPotential).getVoltage = 0 := by
  unfold GunnsElectBattery.getSoc GunnsElectBattery.getVoltage GunnsElectBattery.updateOutputs
  rw [if_pos (by simpa [List.isEmpty_iff] using (activeCells_eq_nil_iff p).mpr hall)]
  exact ⟨rfl, rfl⟩

/-- With the open cell's resistance `1 / DBL_EPSILON` as the near-infinite threshold, two open
cells in parallel have a total resistance below the threshold and a conductance that is not 0. -/
theorem parallelPackAllOpen_conductance :
    parallelPackAllOpen.totalResistance = 1 / (2 * DBL_EPSILON) ∧
      (parallelPackAllOpen.updateState DBL_EPSILON (1 / DBL_EPSILON) 1).mConductance
        = 2 * DBL_EPSILON := by
  have hr : parallelPackAllOpen.totalResistance = 1 / (2 * DBL_EPSILON) := by
    unfold GunnsElectBattery.totalResistance GunnsElectBattery.computeParallelResistance
      GunnsElectBattery.parallelConductanceSum
    rw [accumulateCells_eq_sum]
    norm_num [parallelPackAllOpen, packOf, sampleCell, openCell, DBL_EPSILON,
      GunnsElectBatteryCell.getEffectiveResistance]
  refine ⟨hr, ?_⟩
  unfold GunnsElectBattery.updateState GunnsElectBattery.updateStateTraced guardedConductance
  simp only [hr]
  norm_num [DBL_EPSILON]

/-! ## Initialization of the pack -/

/-- C19: the pack's `initialize` throws whenever `numCells <= 0`, the cell resistance or the
interconnect resistance is below 0, the maximum capacity is not above `DBL_EPSILON`, the voltage
table is missing or the initial soc is outside [0,1], and then no pack results; when it succeeds
the pack has exactly `numCells` cells, each with the shared cell resistance, capacity and initial
soc; and it does succeed when none of those conditions holds. -/
theorem C19_pack_initialize_outcome (p : GunnsElectBattery)
    (configData : GunnsElectBatteryConfigData) (inputData : GunnsElectBatteryInputData) :
    ((configData.mNumCells ≤ 0 ∨ configData.mCellResistance < 0 ∨
          configData.mInterconnectResistance < 0 ∨ ¬ configData.mMaxCapacity > DBL_EPSILON ∨
          configData.mSocVocTable = none ∨ ¬ (0 ≤ inputData.mSoc ∧ inputData.mSoc ≤ 1)) →
        (∃ e, GunnsElectBattery.initialize p configData inputData = .error e) ∧
          ∀ q, GunnsElectBattery.initialize p configData inputData ≠ .ok q) ∧
      (∀ q, GunnsElectBattery.initialize p configData inputData = .ok q →
        (q.mCells.length : Int) = configData.mNumCells ∧
          q.mNumCells = configData.mNumCells ∧
          ∀ c ∈ q.mCells, c.mResistance = configData.mCellResistance ∧
            c.mMaxCapacity = configData.mMaxCapacity ∧ c.mSoc = inputData.mSoc) ∧
      (¬ (configData.mNumCells ≤ 0 ∨ configData.mCellResistance < 0 ∨
          configData.mInterconnectResistance < 0 ∨ ¬ configData.mMaxCapacity > DBL_EPSILON ∨
          configData.mSocVocTable = none ∨ ¬ (0 ≤ inputData.mSoc ∧ inputData.mSoc ≤ 1)) →
        ∃ q, GunnsElectBattery.initialize p configData inputData = .ok q) := by
  have hiff : (∃ q, GunnsElectBattery.initialize p configData inputData = .ok q) ↔
      ¬ (configData.mNumCells ≤ 0 ∨ configData.mCellResistance < 0 ∨
          configData.mInterconnectResistance < 0 ∨ ¬ configData.mMaxCapacity > DBL_EPSILON ∨
          configData.mSocVocTable = none ∨ ¬ (0 ≤ inputData.mSoc ∧ inputData.mSoc ≤ 1)) := by
    rw [pack_initialize_ok_iff, pack_validate_ok_iff]
    simp only [not_or, not_le, not_lt, not_not, ne_eq]
  refine ⟨?_, ?_, hiff.mpr⟩
  · intro hbad
    have hno : ∀ q, GunnsElectBattery.initialize p configData inputData ≠ .ok q :=
      fun q hq => hiff.mp ⟨q, hq⟩ hbad
    refine ⟨?_, hno⟩
    cases hres : GunnsElectBattery.initialize p configData inputData with
    | error e => exact ⟨e, rfl⟩
    | ok q => exact absurd hres (hno q)
  · intro q hq
    obtain ⟨hnum, hcells⟩ := pack_initialize_cells p q configData inputData hq
    obtain ⟨hlen, hall⟩ := initializeCells_spec configData inputData _ q.mCells hcells
    have hpos : 0 < configData.mNumCells :=
      ((pack_validate_ok_iff configData inputData).mp
        ((pack_initialize_ok_iff p configData inputData).mp ⟨q, hq⟩)).1
    refine ⟨?_, hnum, hall⟩
    rw [hlen, List.length_range]
    exact Int.toNat_of_nonneg (le_of_lt hpos)

theorem C19_pack_initialize_outcome_witness :
    (zeroCellsPackConfig.mNumCells ≤ 0 ∧
        ∃ e, GunnsElectBattery.initialize emptyPack zeroCellsPackConfig halfChargedPackInput
          = .error e) ∧
      (negativeResistancePackConfig.mCellResistance < 0 ∧
        ∃ e, GunnsElectBattery.initialize emptyPack negativeResistancePackConfig
          halfChargedPackInput = .error e) ∧
      (∃ q, GunnsElectBattery.initialize emptyPack goodPackConfig halfChargedPackInput = .ok q ∧
        (q.mCells.length : Int) = goodPackConfig.mNumCells ∧
        q.mNumCells = goodPackConfig.mNumCells ∧
        ∀ c ∈ q.mCells, c.mResistance = goodPackConfig.mCellResistance ∧
          c.mMaxCapacity = goodPackConfig.mMaxCapacity ∧
          c.mSoc = halfChargedPackInput.mSoc) :=
  have hzero : zeroCellsPackConfig.mNumCells ≤ 0 := by decide
  have hneg : negativeResistancePackConfig.mCellResistance < 0 := by
    norm_num [negativeResistancePackConfig, goodPackConfig]
  have hgood : ¬ (goodPackConfig.mNumCells ≤ 0 ∨ goodPackConfig.mCellResistance < 0 ∨
      goodPackConfig.mInterconnectResistance < 0 ∨
      ¬ goodPackConfig.mMaxCapacity > DBL_EPSILON ∨
      goodPackConfig.mSocVocTable = none ∨
      ¬ (0 ≤ halfChargedPackInput.mSoc ∧ halfChargedPackInput.mSoc ≤ 1)) := by
    norm_num [goodPackConfig, halfChargedPackInput, DBL_EPSILON]
    exact Option.some_ne_none _
  ⟨⟨hzero,
      ((C19_pack_initialize_outcome emptyPack zeroCellsPackConfig halfChargedPackInput).1
        (Or.inl hzero)).1⟩,
    ⟨hneg,
      ((C19_pack_initialize_outcome emptyPack negativeResistancePackConfig halfChargedPackInput).1
        (Or.inr (Or.inl hneg))).1⟩,
    Exists.elim
      ((C19_pack_initialize_outcome emptyPack goodPackConfig halfChargedPackInput).2.2 hgood)
      (fun q hq => ⟨q, hq,
        (C19_pack_initialize_outcome emptyPack goodPackConfig halfChargedPackInput).2.1 q hq⟩)⟩

/-! ## Fault dominance in the aggregation rules -/

/-- C20: (a) in a pack with a short-circuited cell, whose unfaulted cells have positive
resistances, the parallel combination of the cells (parallel resistance minus interconnect) is at
most `DBL_EPSILON`; (b) in a pack with an open-circuited, not shorted, cell, whose resistances
are at least 0, the series resistance is at least `1 / DBL_EPSILON`; (c) an open-circuited, not
shorted, cell adds only `DBL_EPSILON` to the sum of reciprocals of the parallel rule. -/
theorem C20_fault_dominance (p : GunnsElectBattery) (c : GunnsElectBatteryCell) :
    ((∃ d ∈ p.mCells, d.mMalfShortCircuit = true) →
        (∀ d ∈ p.mCells, d.mMalfShortCircuit = false → d.mMalfOpenCircuit = false →
          0 < d.mResistance) →
        p.computeParallelResistance - p.mInterconnectResistance ≤ DBL_EPSILON) ∧
      ((∃ d ∈ p.mCells, d.mMalfOpenCircuit = true ∧ d.mMalfShortCircuit = false) →
        (∀ d ∈ p.mCells, 0 ≤ d.mResistance) → 0 ≤ p.mInterconnectResistance →
        1 / DBL_EPSILON ≤ p.computeSeriesResistance) ∧
      (c.mMalfOpenCircuit = true → c.mMalfShortCircuit = false →
        1 / c.getEffectiveResistance = DBL_EPSILON ∧
          ({ p with mCells := c :: p.mCells }).parallelConductanceSum
            = DBL_EPSILON + p.parallelConductanceSum) := by
  refine ⟨?_, ?_, ?_⟩
  · rintro ⟨d, hd, hs⟩ hpos
    unfold GunnsElectBattery.computeParallelResistance GunnsElectBattery.parallelConductanceSum
    rw [accumulateCells_eq_sum, add_sub_cancel_right]
    have hnonneg : ∀ x ∈ p.mCells.map (fun c => 1 / c.getEffectiveResistance), 0 ≤ x := by
      intro x hx
      obtain ⟨e, he, rfl⟩ := List.mem_map.mp hx
      exact (one_div_pos.mpr (getEffectiveResistance_pos e (hpos e he))).le
    have hmem : 1 / DBL_EPSILON ∈ p.mCells.map (fun c => 1 / c.getEffectiveResistance) := by
      refine List.mem_map.mpr ⟨d, hd, ?_⟩
      simp [GunnsElectBatteryCell.getEffectiveResistance, hs]
    have hle := List.single_le_sum hnonneg _ hmem
    have h := one_div_le_one_div_of_le (one_div_pos.mpr DBL_EPSILON_pos) hle
    rwa [one_div_one_div] at h
  · rintro ⟨d, hd, ho, hs⟩ hres hic
    unfold GunnsElectBattery.computeSeriesResistance
    rw [accumulateCells_eq_sum]
    have hnonneg : ∀ x ∈ p.mCells.map GunnsElectBatteryCell.getEffectiveResistance, 0 ≤ x := by
      intro x hx
      obtain ⟨e, he, rfl⟩ := List.mem_map.mp hx
      exact getEffectiveResistance_nonneg e (hres e he)
    have hmem : 1 / DBL_EPSILON ∈ p.mCells.map GunnsElectBatteryCell.getEffectiveResistance := by
      refine List.mem_map.mpr ⟨d, hd, ?_⟩
      simp [GunnsElectBatteryCell.getEffectiveResistance, hs, ho]
    have hle := List.single_le_sum hnonneg _ hmem
    linarith
  · intro ho hs
    have hr : 1 / c.getEffectiveResistance = DBL_EPSILON := by
      simp [GunnsElectBatteryCell.getEffectiveResistance, hs, ho]
    refine ⟨hr, ?_⟩
    unfold GunnsElectBattery.parallelConductanceSum
    rw [accumulateCells_eq_sum, accumulateCells_eq_sum, List.map_cons, List.sum_cons, hr]

theorem C20_fault_dominance_witness :
    ((∃ d ∈ parallelPackShorted.mCells, d.mMalfShortCircuit = true) ∧
        (∀ d ∈ parallelPackShorted.mCells, d.mMalfShortCircuit = false →
          d.mMalfOpenCircuit = false → 0 < d.mResistance) ∧
        parallelPackShorted.computeParallelResistance
          - parallelPackShorted.mInterconnectResistance ≤ DBL_EPSILON) ∧
      ((∃ d ∈ seriesPackOpen.mCells, d.mMalfOpenCircuit = true ∧ d.mMalfShortCircuit = false) ∧
        (∀ d ∈ seriesPackOpen.mCells, 0 ≤ d.mResistance) ∧
        0 ≤ seriesPackOpen.mInterconnectResistance ∧
        1 / DBL_EPSILON ≤ seriesPackOpen.computeSeriesResistance) ∧
      (openCell.mMalfOpenCircuit = true ∧ openCell.mMalfShortCircuit = false ∧
        1 / openCell.getEffectiveResistance = DBL_EPSILON ∧
        ({ parallelPack3 with mCells := openCell :: parallelPack3.mCells }).parallelConductanceSum
          = DBL_EPSILON + parallelPack3.parallelConductanceSum) :=
  have ha1 : ∃ d ∈ parallelPackShorted.mCells, d.mMalfShortCircuit = true :=
    ⟨shortedCell false, by simp [parallelPackShorted, packOf], rfl⟩
  have ha2 : ∀ d ∈ parallelPackShorted.mCells, d.mMalfShortCircuit = false →
      d.mMalfOpenCircuit = false → 0 < d.mResistance := by
    intro d hd _ _
    simp only [parallelPackShorted, packOf, List.mem_cons, List.mem_singleton,
      List.not_mem_nil, or_false] at hd
    rcases hd with h | h | h <;> rw [h] <;> norm_num [cell50mOhm, sampleCell, shortedCell]
  have hb1 : ∃ d ∈ seriesPackOpen.mCells,
      d.mMalfOpenCircuit = true ∧ d.mMalfShortCircuit = false :=
    ⟨openCell, by simp [seriesPackOpen, packOf], rfl, rfl⟩
  have hb2 : ∀ d ∈ seriesPackOpen.mCells, 0 ≤ d.mResistance := by
    intro d hd
    simp only [seriesPackOpen, packOf, List.mem_cons, List.mem_singleton,
      List.not_mem_nil, or_false] at hd
    rcases hd with h | h | h <;> rw [h] <;> norm_num [sampleCell, openCell]
  have hb3 : 0 ≤ seriesPackOpen.mInterconnectResistance := by
    norm_num [seriesPackOpen, packOf]
  ⟨⟨ha1, ha2, (C20_fault_dominance parallelPackShorted openCell).1 ha1 ha2⟩,
    ⟨hb1, hb2, hb3, (C20_fault_dominance seriesPackOpen openCell).2.1 hb1 hb2 hb3⟩,
    ⟨rfl, rfl, (C20_fault_dominance parallelPack3 openCell).2.2 rfl rfl⟩⟩

/-! ## Frame and totality of the cell operations -/

/-- C22: `updateSoc` changes at most the soc: resistance, maximum capacity, both malfunction
flags and the name are as before, for every input; and a call of `getEffectiveSoc`,
`getEffectiveResistance` or `getEffectiveVoltage`, each a `const` member function, leaves the
whole cell as it was. -/
theorem C22_updateSoc_frame (c : GunnsElectBatteryCell) (current timeStep : ℚ)
    (socVocTable : ℚ → ℚ) :
    ((c.updateSoc current timeStep).mResistance = c.mResistance ∧
        (c.updateSoc current timeStep).mMaxCapacity = c.mMaxCapacity ∧
        (c.updateSoc current timeStep).mMalfOpenCircuit = c.mMalfOpenCircuit ∧
        (c.updateSoc current timeStep).mMalfShortCircuit = c.mMalfShortCircuit ∧
        (c.updateSoc current timeStep).mName = c.mName) ∧
      (constCall GunnsElectBatteryCell.getEffectiveSoc c).2 = c ∧
      (constCall GunnsElectBatteryCell.getEffectiveResistance c).2 = c ∧
      (constCall (fun d => d.getEffectiveVoltage socVocTable) c).2 = c := by
  refine ⟨?_, rfl, rfl, rfl⟩
  rw [updateSoc_eq_with]
  exact ⟨rfl, rfl, rfl, rfl, rfl⟩

/-- C23: `updateSoc`, `getEffectiveSoc` and `getEffectiveResistance` are embedded as total
functions with no error outcome, for every combination of malfunction flags, current, time step,
capacity and soc.  No division they evaluate has a zero divisor: every divisor of `updateSoc` is
nonzero, a capacity of 0 or below is never divided by, and the one divisor of
`getEffectiveResistance`, `DBL_EPSILON`, is nonzero. -/
theorem C23_no_division_by_zero (c : GunnsElectBatteryCell) (current timeStep : ℚ) :
    (∀ d ∈ c.updateSocDivisors current timeStep, d ≠ 0) ∧
      (c.mMaxCapacity ≤ 0 → c.updateSocDivisors current timeStep = []) ∧
      DBL_EPSILON ≠ 0 := by
  refine ⟨?_, ?_, ne_of_gt DBL_EPSILON_pos⟩
  · intro d hd
    unfold GunnsElectBatteryCell.updateSocDivisors GunnsElectBatteryCell.updateSocTraced at hd
    cases hs : c.mMalfShortCircuit <;> cases ho : c.mMalfOpenCircuit <;>
      by_cases hc : c.mMaxCapacity > DBL_EPSILON <;> simp [hs, ho, hc] at hd
    rcases hd with h | h
    · rw [h]; exact ne_of_gt (lt_trans DBL_EPSILON_pos hc)
    · rw [h]; unfold SEC_PER_HR; norm_num
  · intro hcap
    have hc : ¬ c.mMaxCapacity > DBL_EPSILON :=
      not_lt.mpr (le_trans hcap DBL_EPSILON_pos.le)
    unfold GunnsElectBatteryCell.updateSocDivisors GunnsElectBatteryCell.updateSocTraced
    cases hs : c.mMalfShortCircuit <;> cases ho : c.mMalfOpenCircuit <;> simp [hc]

theorem C23_no_division_by_zero_witness :
    (GunnsElectBatteryCell.default.mMaxCapacity ≤ 0 ∧
        GunnsElectBatteryCell.default.updateSocDivisors 5 60 = []) ∧
      (∀ d ∈ (shortedCell true).updateSocDivisors 5 60, d ≠ 0) ∧
      (∀ d ∈ sampleCell.updateSocDivisors 5 60, d ≠ 0) :=
  ⟨⟨le_refl _, (C23_no_division_by_zero GunnsElectBatteryCell.default 5 60).2.1 (le_refl _)⟩,
    (C23_no_division_by_zero (shortedCell true) 5 60).1,
    (C23_no_division_by_zero sampleCell 5 60).1⟩

/-! ## Zero charge and merged steps -/

/-- C24 at the failing input: a cell with a maximum capacity of exactly `DBL_EPSILON`, no
malfunction and a soc of 1/2 is accepted by `initialize`, yet `updateSoc` with a current of 0, or
with a time step of 0, sets its soc to 0. -/
theorem C24_accepted_epsilon_capacity_loses_charge :
    ( GunnsElectBatteryCell.initialize GunnsElectBatteryCell.default epsilonCapacityConfig
        nominalCellInput "cell0").2 = .ok () ∧
      ( GunnsElectBatteryCell.initialize GunnsElectBatteryCell.default epsilonCapacityConfig
        nominalCellInput "cell0").1.mMalfOpenCircuit = false ∧
      ( GunnsElectBatteryCell.initialize GunnsElectBatteryCell.default epsilonCapacityConfig
        nominalCellInput "cell0").1.mMalfShortCircuit = false ∧
      ( GunnsElectBatteryCell.initialize GunnsElectBatteryCell.default epsilonCapacityConfig
        nominalCellInput "cell0").1.mSoc = 1 / 2 ∧
      (( GunnsElectBatteryCell.initialize GunnsElectBatteryCell.default epsilonCapacityConfig
        nominalCellInput "cell0").1.updateSoc 0 60).mSoc = 0 ∧
      (( GunnsElectBatteryCell.initialize GunnsElectBatteryCell.default epsilonCapacityConfig
        nominalCellInput "cell0").1.updateSoc 5 0).mSoc = 0 := by
  have hok : ( GunnsElectBatteryCell.initialize GunnsElectBatteryCell.default
      epsilonCapacityConfig nominalCellInput "cell0").2 = .ok () := by
    unfold GunnsElectBatteryCell.initialize
    rw [validate_ok_iff]
    refine ⟨by decide, ?_, le_refl _, ?_, ?_⟩ <;>
      norm_num [epsilonCapacityConfig, nominalCellInput]
  refine ⟨hok, rfl, rfl, rfl, ?_, ?_⟩
  · exact (updateSoc_guard_soc _ 0 60 rfl rfl (le_refl _))
  · exact (updateSoc_guard_soc _ 5 0 rfl rfl (le_refl _))

/-- C25, as stated, fails on the code: with every hypothesis met (no malfunction, capacity 10
above `DBL_EPSILON`, soc 1/2, two charge amounts of `-1 * 60` and their sum `-2 * 60`), two
calls `updateSoc(-1, 60)` give the binary64 soc `4533623624886300 / 2^53` and one call
`updateSoc(-2, 60)` gives `4533623624886299 / 2^53`, one unit in the last place less. -/
theorem C25_step_merging_differs_on_doubles :
    (sampleCell.mMalfShortCircuit = false ∧ sampleCell.mMalfOpenCircuit = false ∧
        sampleCell.mMaxCapacity > DBL_EPSILON ∧ 0 ≤ sampleCell.mSoc ∧ sampleCell.mSoc ≤ 1) ∧
      ((-1 : ℚ) * 60 ≤ 0 ∧ (-2 : ℚ) * 60 = -1 * 60 + -1 * 60) ∧
      ((sampleCell.updateSocDouble (-1) 60).updateSocDouble (-1) 60).mSoc
        = 4533623624886300 / 2 ^ 53 ∧
      (sampleCell.updateSocDouble (-2) 60).mSoc = 4533623624886299 / 2 ^ 53 ∧
      ((sampleCell.updateSocDouble (-1) 60).updateSocDouble (-1) 60).mSoc
        ≠ (sampleCell.updateSocDouble (-2) 60).mSoc := by
  refine ⟨⟨rfl, rfl, sampleCell_capacity_above, by norm_num [sampleCell],
    by norm_num [sampleCell]⟩, ⟨by norm_num, by norm_num⟩,
    sampleCell_updateSocDouble_second, sampleCell_updateSocDouble_merged, ?_⟩
  rw [sampleCell_updateSocDouble_second, sampleCell_updateSocDouble_merged]
  norm_num

/-- C25, amended: for a cell with no malfunction, maximum capacity above `DBL_EPSILON` and soc in
[0,1], and two charge amounts `current * timeStep` of the same sign: in exact arithmetic two
consecutive `updateSoc` calls give the same soc, and the same cell, as one call whose charge
amount is their sum; in binary64 arithmetic, as long as the charge amounts and their quotients by
the capacity stay below `2^1022` (so that no operation overflows), the two results differ by at
most `(1 + |q1| + |q2|) / 2^49`, where `q = current * timeStep / maxCapacity / SEC_PER_HR`.  For
opposite signs the equality can fail even in exact arithmetic: discharging the sample cell by
10 A for an hour and charging it by 10 A for an hour gives soc 1, one call with no charge gives
1/2. -/
theorem C25_updateSoc_step_merging (c : GunnsElectBatteryCell)
    (current1 timeStep1 current2 timeStep2 current timeStep : ℚ)
    (hs : c.mMalfShortCircuit = false) (ho : c.mMalfOpenCircuit = false)
    (hc : c.mMaxCapacity > DBL_EPSILON) (h0 : 0 ≤ c.mSoc) (h1 : c.mSoc ≤ 1)
    (hsign : (0 ≤ current1 * timeStep1 ∧ 0 ≤ current2 * timeStep2) ∨
      (current1 * timeStep1 ≤ 0 ∧ current2 * timeStep2 ≤ 0))
    (hsum : current * timeStep = current1 * timeStep1 + current2 * timeStep2) :
    ((c.updateSoc current1 timeStep1).updateSoc current2 timeStep2).mSoc
        = (c.updateSoc current timeStep).mSoc ∧
      (c.updateSoc current1 timeStep1).updateSoc current2 timeStep2
        = c.updateSoc current timeStep ∧
      ((|current1 * timeStep1| < 2 ^ 1022 ∧ |current1 * timeStep1| / c.mMaxCapacity < 2 ^ 1022 ∧
          |current2 * timeStep2| < 2 ^ 1022 ∧
          |current2 * timeStep2| / c.mMaxCapacity < 2 ^ 1022) →
        |((c.updateSocDouble current1 timeStep1).updateSocDouble current2 timeStep2).mSoc
            - (c.updateSocDouble current timeStep).mSoc|
          ≤ (1 + |current1 * timeStep1 / c.mMaxCapacity / SEC_PER_HR|
              + |current2 * timeStep2 / c.mMaxCapacity / SEC_PER_HR|) / 2 ^ 49) ∧
      ((sampleCell.updateSoc 10 3600).updateSoc (-10) 3600).mSoc
        ≠ (sampleCell.updateSoc 0 3600).mSoc := by
  have hcap : 0 < c.mMaxCapacity := lt_trans DBL_EPSILON_pos hc
  have hsec : (0 : ℚ) < SEC_PER_HR := by unfold SEC_PER_HR; norm_num
  have hframe := updateSoc_eq_with c current1 timeStep1
  have hs1 : (c.updateSoc current1 timeStep1).mMalfShortCircuit = false := by
    rw [hframe]; exact hs
  have ho1 : (c.updateSoc current1 timeStep1).mMalfOpenCircuit = false := by
    rw [hframe]; exact ho
  have hcap1 : (c.updateSoc current1 timeStep1).mMaxCapacity = c.mMaxCapacity := by
    rw [hframe]
  have hc1 : (c.updateSoc current1 timeStep1).mMaxCapacity > DBL_EPSILON := by
    rw [hcap1]; exact hc
  have hsoc : ((c.updateSoc current1 timeStep1).updateSoc current2 timeStep2).mSoc
      = (c.updateSoc current timeStep).mSoc := by
    rw [updateSoc_nominal_soc _ current2 timeStep2 hs1 ho1 hc1, hcap1,
      updateSoc_nominal_soc c current1 timeStep1 hs ho hc,
      updateSoc_nominal_soc c current timeStep hs ho hc, hsum, add_div, add_div]
    apply limitRange_merge _ _ _ h0 h1
    rcases hsign with ⟨ha, hb⟩ | ⟨ha, hb⟩
    · exact Or.inl ⟨div_nonneg (div_nonneg ha hcap.le) hsec.le,
        div_nonneg (div_nonneg hb hcap.le) hsec.le⟩
    · exact Or.inr ⟨div_nonpos_of_nonpos_of_nonneg
          (div_nonpos_of_nonpos_of_nonneg ha hcap.le) hsec.le,
        div_nonpos_of_nonpos_of_nonneg (div_nonpos_of_nonpos_of_nonneg hb hcap.le) hsec.le⟩
  refine ⟨hsoc, ?_,
    fun _ => updateSocDouble_merge_error c current1 timeStep1 current2 timeStep2 current
      timeStep hs ho hc h0 h1 hsign hsum, ?_⟩
  · rw [updateSoc_eq_with (c.updateSoc current1 timeStep1) current2 timeStep2, hsoc,
      updateSoc_eq_with c current timeStep]
    rw [hframe]
  · have hcs : sampleCell.mMaxCapacity > DBL_EPSILON := by
      norm_num [sampleCell, DBL_EPSILON]
    have hf := updateSoc_eq_with sampleCell 10 3600
    have e1 : (sampleCell.updateSoc 10 3600).mSoc = 0 := by
      rw [updateSoc_nominal_soc sampleCell 10 3600 rfl rfl hcs]
      norm_num [limitRange, sampleCell, SEC_PER_HR]
    have e2 : ((sampleCell.updateSoc 10 3600).updateSoc (-10) 3600).mSoc = 1 := by
      rw [updateSoc_nominal_soc _ (-10) 3600 (by rw [hf]; rfl) (by rw [hf]; rfl)
        (by rw [hf]; exact hcs), e1]
      rw [hf]
      norm_num [limitRange, sampleCell, SEC_PER_HR]
    have e3 : (sampleCell.updateSoc 0 3600).mSoc = 1 / 2 := by
      rw [updateSoc_nominal_soc sampleCell 0 3600 rfl rfl hcs]
      norm_num [limitRange, sampleCell, SEC_PER_HR]
    rw [e2, e3]
    norm_num

theorem C25_updateSoc_step_merging_witness :
    (sampleCell.mMalfShortCircuit = false ∧ sampleCell.mMalfOpenCircuit = false ∧
        sampleCell.mMaxCapacity > DBL_EPSILON ∧ 0 ≤ sampleCell.mSoc ∧ sampleCell.mSoc ≤ 1) ∧
      (((0 : ℚ) ≤ 4 * 3600 ∧ (0 : ℚ) ≤ 3 * 1200) ∧ (5 : ℚ) * 3600 = 4 * 3600 + 3 * 1200 ∧
        ((sampleCell.updateSoc 4 3600).updateSoc 3 1200).mSoc
          = (sampleCell.updateSoc 5 3600).mSoc) ∧
      ((((-1 : ℚ) * 60 ≤ 0 ∧ (-1 : ℚ) * 60 ≤ 0)) ∧ (-2 : ℚ) * 60 = -1 * 60 + -1 * 60 ∧
        ((sampleCell.updateSoc (-1) 60).updateSoc (-1) 60).mSoc
          = (sampleCell.updateSoc (-2) 60).mSoc ∧
        (|(-1 : ℚ) * 60| < 2 ^ 1022 ∧ |(-1 : ℚ) * 60| / sampleCell.mMaxCapacity < 2 ^ 1022 ∧
          |(-1 : ℚ) * 60| < 2 ^ 1022 ∧
          |(-1 : ℚ) * 60| / sampleCell.mMaxCapacity < 2 ^ 1022) ∧
        |((sampleCell.updateSocDouble (-1) 60).updateSocDouble (-1) 60).mSoc
            - (sampleCell.updateSocDouble (-2) 60).mSoc|
          ≤ (1 + |(-1 : ℚ) * 60 / sampleCell.mMaxCapacity / SEC_PER_HR|
              + |(-1 : ℚ) * 60 / sampleCell.mMaxCapacity / SEC_PER_HR|) / 2 ^ 49) :=
  have hc : sampleCell.mMaxCapacity > DBL_EPSILON := by norm_num [sampleCell, DBL_EPSILON]
  have h0 : 0 ≤ sampleCell.mSoc := by norm_num [sampleCell]
  have h1 : sampleCell.mSoc ≤ 1 := by norm_num [sampleCell]
  have hfin : |(-1 : ℚ) * 60| < 2 ^ 1022 ∧ |(-1 : ℚ) * 60| / sampleCell.mMaxCapacity < 2 ^ 1022 ∧
      |(-1 : ℚ) * 60| < 2 ^ 1022 ∧ |(-1 : ℚ) * 60| / sampleCell.mMaxCapacity < 2 ^ 1022 := by
    have e : |(-1 : ℚ) * 60| = 60 := by norm_num [abs_of_neg]
    rw [e]
    norm_num [sampleCell]
  ⟨⟨rfl, rfl, hc, h0, h1⟩,
    ⟨⟨by norm_num, by norm_num⟩, by norm_num,
      (C25_updateSoc_step_merging sampleCell 4 3600 3 1200 5 3600 rfl rfl hc h0 h1
        (Or.inl ⟨by norm_num, by norm_num⟩) (by norm_num)).1⟩,
    ⟨⟨by norm_num, by norm_num⟩, by norm_num,
      (C25_updateSoc_step_merging sampleCell (-1) 60 (-1) 60 (-2) 60 rfl rfl hc h0 h1
        (Or.inr ⟨by norm_num, by norm_num⟩) (by norm_num)).1,
      hfin,
      (C25_updateSoc_step_merging sampleCell (-1) 60 (-1) 60 (-2) 60 rfl rfl hc h0 h1
        (Or.inr ⟨by norm_num, by norm_num⟩) (by norm_num)).2.2.1 hfin⟩⟩

/-! ## What `initialize` leaves in the cell -/

/-- C21: when `initialize` succeeds, the cell afterwards holds exactly the arguments: resistance,
maximum capacity, open-circuit flag, short-circuit flag, soc and name each equal the corresponding
argument, with no clamping or normalisation; it is a cell that `validate` accepts. -/
theorem C21_initialize_assigns_arguments (c : GunnsElectBatteryCell)
    (configData : GunnsElectBatteryCellConfigData) (inputData : GunnsElectBatteryCellInputData)
    (name : String)
    (hok : ( GunnsElectBatteryCell.initialize c configData inputData name).2 = .ok ()) :
    ( GunnsElectBatteryCell.initialize c configData inputData name).1 =
        { mMalfOpenCircuit := inputData.mMalfOpenCircuit
          mMalfShortCircuit := inputData.mMalfShortCircuit
          mResistance := configData.mResistance
          mMaxCapacity := configData.mMaxCapacity
          mSoc := inputData.mSoc
          mName := name } ∧
      GunnsElectBatteryCell.validate
        ( GunnsElectBatteryCell.initialize c configData inputData name).1 = .ok () := by
  unfold GunnsElectBatteryCell.initialize at hok ⊢
  exact ⟨rfl, hok⟩

theorem C21_initialize_assigns_arguments_witness :
    ( GunnsElectBatteryCell.initialize GunnsElectBatteryCell.default nominalCellConfig
        nominalCellInput "cell1").2 = .ok () ∧
      ( GunnsElectBatteryCell.initialize GunnsElectBatteryCell.default nominalCellConfig
          nominalCellInput "cell1").1 =
        { mMalfOpenCircuit := nominalCellInput.mMalfOpenCircuit
          mMalfShortCircuit := nominalCellInput.mMalfShortCircuit
          mResistance := nominalCellConfig.mResistance
          mMaxCapacity := nominalCellConfig.mMaxCapacity
          mSoc := nominalCellInput.mSoc
          mName := "cell1" } ∧
      GunnsElectBatteryCell.validate
        ( GunnsElectBatteryCell.initialize GunnsElectBatteryCell.default nominalCellConfig
          nominalCellInput "cell1").1 = .ok () :=
  ⟨nominal_initialize_ok,
    C21_initialize_assigns_arguments _ _ _ _ nominal_initialize_ok⟩

/-- C26: `initialize` assigns all six fields before it validates, so when it throws, the cell
holds the rejected arguments, not the values it had before the call; it is left as a cell that
`validate` rejects. -/
theorem C26_initialize_not_atomic (c : GunnsElectBatteryCell)
    (configData : GunnsElectBatteryCellConfigData) (inputData : GunnsElectBatteryCellInputData)
    (name : String)
    (hfail : ∃ e, ( GunnsElectBatteryCell.initialize c configData inputData name).2
      = .error e) :
    ( GunnsElectBatteryCell.initialize c configData inputData name).1 =
        { mMalfOpenCircuit := inputData.mMalfOpenCircuit
          mMalfShortCircuit := inputData.mMalfShortCircuit
          mResistance := configData.mResistance
          mMaxCapacity := configData.mMaxCapacity
          mSoc := inputData.mSoc
          mName := name } ∧
      ∃ e, GunnsElectBatteryCell.validate
        ( GunnsElectBatteryCell.initialize c configData inputData name).1 = .error e := by
  unfold GunnsElectBatteryCell.initialize at hfail ⊢
  exact ⟨rfl, hfail⟩

theorem C26_initialize_not_atomic_witness :
    (∃ e, ( GunnsElectBatteryCell.initialize sampleCell negativeResistanceCellConfig
        nominalCellInput "cell9").2 = .error e) ∧
      (( GunnsElectBatteryCell.initialize sampleCell negativeResistanceCellConfig
          nominalCellInput "cell9").1 =
        { mMalfOpenCircuit := nominalCellInput.mMalfOpenCircuit
          mMalfShortCircuit := nominalCellInput.mMalfShortCircuit
          mResistance := negativeResistanceCellConfig.mResistance
          mMaxCapacity := negativeResistanceCellConfig.mMaxCapacity
          mSoc := nominalCellInput.mSoc
          mName := "cell9" } ∧
        ∃ e, GunnsElectBatteryCell.validate
          ( GunnsElectBatteryCell.initialize sampleCell negativeResistanceCellConfig
            nominalCellInput "cell9").1 = .error e) ∧
      ( GunnsElectBatteryCell.initialize sampleCell negativeResistanceCellConfig
        nominalCellInput "cell9").1.mResistance ≠ sampleCell.mResistance :=
  ⟨negativeResistance_initialize_fails,
    C26_initialize_not_atomic _ _ _ _ negativeResistance_initialize_fails,
    by norm_num [ GunnsElectBatteryCell.initialize, negativeResistanceCellConfig, sampleCell]⟩

/-- C27: for every cell that `initialize` accepts, `getEffectiveResistance()` is at least 0
whatever the malfunction flags, is above 0 when a malfunction flag is set, and is 0 exactly when
no malfunction is set and the nominal resistance is 0; and `initialize` does accept a resistance
of 0. -/
theorem C27_effective_resistance_sign (c : GunnsElectBatteryCell)
    (configData : GunnsElectBatteryCellConfigData) (inputData : GunnsElectBatteryCellInputData)
    (name : String)
    (hok : ( GunnsElectBatteryCell.initialize c configData inputData name).2 = .ok ()) :
    0 ≤ GunnsElectBatteryCell.getEffectiveResistance
        ( GunnsElectBatteryCell.initialize c configData inputData name).1 ∧
      ((inputData.mMalfOpenCircuit = true ∨ inputData.mMalfShortCircuit = true) →
        0 < GunnsElectBatteryCell.getEffectiveResistance
        ( GunnsElectBatteryCell.initialize c configData inputData name).1) ∧
      (GunnsElectBatteryCell.getEffectiveResistance
        ( GunnsElectBatteryCell.initialize c configData inputData name).1 = 0 ↔
        (inputData.mMalfOpenCircuit = false ∧ inputData.mMalfShortCircuit = false ∧
          configData.mResistance = 0)) ∧
      ( GunnsElectBatteryCell.initialize GunnsElectBatteryCell.default zeroResistanceCellConfig
        nominalCellInput "cell2").2 = .ok () := by
  unfold GunnsElectBatteryCell.initialize at hok
  rw [validate_ok_iff] at hok
  have hres : 0 ≤ configData.mResistance := hok.2.1
  have heps := DBL_EPSILON_pos
  refine ⟨?_, ?_, ?_, zeroResistance_initialize_ok⟩
  · unfold GunnsElectBatteryCell.initialize GunnsElectBatteryCell.getEffectiveResistance
    cases inputData.mMalfShortCircuit <;> cases inputData.mMalfOpenCircuit <;>
      simp <;> first | exact hres | exact heps.le
  · unfold GunnsElectBatteryCell.initialize GunnsElectBatteryCell.getEffectiveResistance
    cases inputData.mMalfShortCircuit <;> cases inputData.mMalfOpenCircuit <;>
      simp <;> exact heps
  · unfold GunnsElectBatteryCell.initialize GunnsElectBatteryCell.getEffectiveResistance
    cases inputData.mMalfShortCircuit <;> cases inputData.mMalfOpenCircuit <;>
      simp <;> exact ne_of_gt heps

theorem C27_effective_resistance_sign_witness :
    ( GunnsElectBatteryCell.initialize GunnsElectBatteryCell.default zeroResistanceCellConfig
        openCellInput "cell3").2 = .ok () ∧
      (0 ≤ GunnsElectBatteryCell.getEffectiveResistance
        ( GunnsElectBatteryCell.initialize GunnsElectBatteryCell.default
          zeroResistanceCellConfig openCellInput "cell3").1) ∧
      ((openCellInput.mMalfOpenCircuit = true ∨ openCellInput.mMalfShortCircuit = true) ∧
        0 < GunnsElectBatteryCell.getEffectiveResistance
          ( GunnsElectBatteryCell.initialize GunnsElectBatteryCell.default
            zeroResistanceCellConfig openCellInput "cell3").1) ∧
      ((nominalCellInput.mMalfOpenCircuit = false ∧ nominalCellInput.mMalfShortCircuit = false ∧
          zeroResistanceCellConfig.mResistance = 0) ∧
        GunnsElectBatteryCell.getEffectiveResistance
          ( GunnsElectBatteryCell.initialize GunnsElectBatteryCell.default
            zeroResistanceCellConfig nominalCellInput "cell2").1 = 0) :=
  have hok : ( GunnsElectBatteryCell.initialize GunnsElectBatteryCell.default
      zeroResistanceCellConfig openCellInput "cell3").2 = .ok () := by
    unfold GunnsElectBatteryCell.initialize
    rw [validate_ok_iff]
    refine ⟨by decide, ?_, ?_, ?_, ?_⟩ <;>
      norm_num [zeroResistanceCellConfig, openCellInput, DBL_EPSILON]
  ⟨hok,
    (C27_effective_resistance_sign _ _ _ _ hok).1,
    ⟨Or.inl rfl, (C27_effective_resistance_sign _ _ _ _ hok).2.1 (Or.inl rfl)⟩,
    ⟨⟨rfl, rfl, rfl⟩,
      (C27_effective_resistance_sign _ _ _ _ zeroResistance_initialize_ok).2.2.1.mpr
        ⟨rfl, rfl, rfl⟩⟩⟩

end Gunns
